import Mathlib

/-!
Shallow embedding of the LLM Provider Service of this repository
(`core/llm_service.py` together with the provider configuration shape of
`config.py`), and proofs about its claimed properties.

Python dictionaries are modelled as association lists with unique keys and
insertion-order update semantics (`dset` replaces the value of an existing
key in place, otherwise appends).  JSON values are modelled by `JVal`.
Python exceptions are modelled with `Except String`, the `String` being the
exception message; machinery that can be interrupted (the progress callback,
the HTTP transport, the Gemini SDK) is supplied as an explicit environment
`Env`, so a run of `send_request` is a pure function of the session state,
the prompt and the environment.
-/

/-- A JSON-like value (the payloads of requests, responses, configuration
capabilities and parameters).  Python float literals appearing in the source
(`0.7`, `1.0`) are carried as rationals; no arithmetic is ever done on them. -/
inductive JVal where
  | null
  | bool (b : Bool)
  | num (n : Int)
  | flt (q : Rat)
  | str (s : String)
  | arr (xs : List JVal)
  | obj (fields : List (String × JVal))

/-- Association-list lookup: the value of the first entry with the given key,
matching Python dictionary lookup (keys are unique in every dict we build). -/
def alookup {α : Type} : List (String × α) → String → Option α
  | [], _ => none
  | (k, v) :: rest, key => if k = key then some v else alookup rest key

/-- Python dictionary assignment `d[key] = v`: replace the value of an
existing key in place (keeping its position), otherwise append the new pair. -/
def dset {α : Type} : List (String × α) → String → α → List (String × α)
  | [], key, v => [(key, v)]
  | (k, w) :: rest, key, v =>
      if k = key then (k, v) :: rest else (k, w) :: dset rest key v

/-- Python truthiness of a JSON value (`bool(x)`). -/
def truthy : JVal → Bool
  | .null => false
  | .bool b => b
  | .num n => n != 0
  | .flt q => q != 0
  | .str s => s != ""
  | .arr xs => !xs.isEmpty
  | .obj fs => !fs.isEmpty

/-- Python truthiness of an optional string attribute (`None` and `""` are
falsy). -/
def optStrTruthy : Option String → Bool
  | none => false
  | some s => s != ""

/-- `caps.get(key, default)` on a capability dictionary. -/
def capGet (caps : List (String × JVal)) (key : String) (default : JVal) : JVal :=
  (alookup caps key).getD default

/-- `caps.get(key, False)` used directly as a condition in the source. -/
def capTruthy (caps : List (String × JVal)) (key : String) : Bool :=
  truthy (capGet caps key (.bool false))

/-- `caps.get(key, default)` for a numeric capability limit.  In the
repository configuration every capability limit is an integer, so a present
non-numeric value is treated as absent. -/
def capNum (caps : List (String × JVal)) (key : String) (default : Int) : Int :=
  match alookup caps key with
  | some (.num n) => n
  | _ => default

/-- `len(x)` on a JSON value; raises `TypeError` on values without a length. -/
def pyLen : JVal → Except String Nat
  | .str t => .ok t.length
  | .arr xs => .ok xs.length
  | .obj fs => .ok fs.length
  | _ => .error "TypeError: object has no len"

/-- One model entry of a provider configuration (`{id, name, capabilities}`);
`capabilities` is absent for the Anthropic models of the default
configuration, modelled as the empty dictionary (`model.get("capabilities", {})`). -/
structure ModelInfo where
  id : Option String
  name : String
  capabilities : List (String × JVal)

/-- One provider entry of the configuration (`config["api"][provider]`). -/
structure ProviderConfig where
  url : Option String
  version : Option String
  models : List ModelInfo
  default_model : Option String

/-- The configuration consumed by the service: the `api` mapping and the
`default_api` key of `DEFAULT_CONFIG`. -/
structure Config where
  api : List (String × ProviderConfig)
  default_api : Option String

/-- The provider configuration used when the default provider is not found,
`config["api"].get(provider, {})`. -/
def emptyProviderConfig : ProviderConfig :=
  { url := none, version := none, models := [], default_model := none }

/-- The mutable session state of `LLMService`.  Python attributes that are
created and deleted dynamically (`use_extended_thinking`,
`extended_thinking_budget`, `reasoning_effort`, `use_thinking`) are modelled
as `Option` fields, `none` meaning the attribute is absent.  `gemini_client`
records whether the lazily created SDK client handle currently exists. -/
structure LLMState where
  config : Config
  api_key : Option String
  api_provider : String
  api_config : ProviderConfig
  model_id : Option String
  parameters : List (String × JVal)
  last_usage : JVal
  use_extended_thinking : Option Bool
  extended_thinking_budget : Option Int
  reasoning_effort : Option String
  use_thinking : Option Bool
  gemini_client : Bool

/-- `LLMService._get_model_capabilities`: linear scan of the active
provider's model list for the entry whose `id` equals `model_id`, returning
its capability dictionary, or the empty dictionary when not found. -/
def get_model_capabilities (s : LLMState) : List (String × JVal) :=
  match s.api_config.models.find? (fun m => m.id == s.model_id) with
  | some m => m.capabilities
  | none => []

/-- `LLMService.configure_for_model`: derive provider-appropriate default
parameters and mode-flag initial values from the active model's
capabilities.  Returns immediately when no model is selected or when the
capability dictionary is empty. -/
def configure_for_model (s : LLMState) : LLMState :=
  if ¬ optStrTruthy s.model_id then s
  else
    let caps := get_model_capabilities s
    if caps.isEmpty then s
    else if s.api_provider = "anthropic" then
      let s1 := { s with
        parameters := dset s.parameters "max_tokens" (capGet caps "max_tokens_default" (.num 8192)) }
      if capTruthy caps "supports_extended_thinking" then
        { s1 with
          use_extended_thinking := some false,
          extended_thinking_budget := some (capNum caps "max_tokens_extended" 64000) }
      else s1
    else if s.api_provider = "openai" then
      if capTruthy caps "supports_reasoning" then
        { s with
          parameters := dset s.parameters "max_tokens" (capGet caps "max_tokens_default" (.num 16000)),
          reasoning_effort := some "medium" }
      else
        { s with
          parameters := dset s.parameters "max_tokens" (capGet caps "max_tokens_default" (.num 16384)) }
    else if s.api_provider = "gemini" then
      let s1 := { s with
        parameters := dset s.parameters "max_output_tokens" (capGet caps "output_token_limit" (.num 8192)) }
      if capTruthy caps "supports_thinking" then
        { s1 with use_thinking := some false }
      else s1
    else s

/-- `LLMService.__init__`: select the default provider and its default
model, initialize universal parameters and empty usage, configure for the
model when one is set, and finally set `reasoning_effort` to `"medium"`
unconditionally (the source does this after `configure_for_model`). -/
def initLLM (config : Config) (api_key : Option String) : LLMState :=
  let provider := config.default_api.getD "anthropic"
  let api_config := (alookup config.api provider).getD emptyProviderConfig
  let s : LLMState :=
    { config := config
      api_key := api_key
      api_provider := provider
      api_config := api_config
      model_id := api_config.default_model
      parameters := [("temperature", .flt 0.7)]
      last_usage := .obj []
      use_extended_thinking := none
      extended_thinking_budget := none
      reasoning_effort := none
      use_thinking := none
      gemini_client := false }
  let s2 := if optStrTruthy s.model_id then configure_for_model s else s
  { s2 with reasoning_effort := some "medium" }

/-- `LLMService.set_api_key`: store the key; when the active provider is
Gemini, drop the cached SDK client handle. -/
def set_api_key (s : LLMState) (key : String) : LLMState :=
  let s1 := { s with api_key := some key }
  if s1.api_provider = "gemini" then { s1 with gemini_client := false } else s1

/-- `LLMService.set_provider`: fails (returning `false`, state unchanged)
when the name is not a configured provider; on success switches provider and
its configuration, resets the model to the provider's default, deletes all
four dynamic mode attributes, drops the Gemini client when switching onto
Gemini, and re-derives defaults. -/
def set_provider (s : LLMState) (provider : String) : Bool × LLMState :=
  match alookup s.config.api provider with
  | some pc =>
      let prev := s.api_provider
      let s1 := { s with
        api_provider := provider
        api_config := pc
        model_id := pc.default_model
        use_extended_thinking := none
        extended_thinking_budget := none
        reasoning_effort := none
        use_thinking := none }
      let s2 := if prev ≠ provider ∧ provider = "gemini" then
          { s1 with gemini_client := false } else s1
      (true, configure_for_model s2)
  | none => (false, s)

/-- `LLMService.set_model`: store any model id without an existence check,
delete the `use_extended_thinking`, `extended_thinking_budget` and
`reasoning_effort` attributes (the source does not delete `use_thinking`
here), and re-derive defaults. -/
def set_model (s : LLMState) (model_id : String) : LLMState :=
  configure_for_model { s with
    model_id := some model_id
    use_extended_thinking := none
    extended_thinking_budget := none
    reasoning_effort := none }

/-- `LLMService.set_parameter`: raw dictionary assignment, no validation. -/
def set_parameter (s : LLMState) (param_name : String) (value : JVal) : LLMState :=
  { s with parameters := dset s.parameters param_name value }

/-- `LLMService.set_extended_thinking`: fails unless the active model's
capabilities report `supports_extended_thinking`; otherwise stores the
enabled flag and, when a budget is given, stores
`min(budget, caps.get("max_tokens_extended", 64000))`. -/
def set_extended_thinking (s : LLMState) (enabled : Bool) (budget : Option Int) :
    Bool × LLMState :=
  let caps := get_model_capabilities s
  if ¬ capTruthy caps "supports_extended_thinking" then (false, s)
  else
    let s1 := { s with use_extended_thinking := some enabled }
    let s2 := match budget with
      | some b =>
          { s1 with
            extended_thinking_budget := some (min b (capNum caps "max_tokens_extended" 64000)) }
      | none => s1
    (true, s2)

/-- `LLMService.set_thinking`: fails unless `supports_thinking`. -/
def set_thinking (s : LLMState) (enabled : Bool) : Bool × LLMState :=
  let caps := get_model_capabilities s
  if ¬ capTruthy caps "supports_thinking" then (false, s)
  else (true, { s with use_thinking := some enabled })

/-- `LLMService.set_reasoning_effort`: fails unless `supports_reasoning`
and the effort is one of `low`, `medium`, `high`. -/
def set_reasoning_effort (s : LLMState) (effort : String) : Bool × LLMState :=
  let caps := get_model_capabilities s
  if ¬ capTruthy caps "supports_reasoning" then (false, s)
  else if ¬ (effort = "low" ∨ effort = "medium" ∨ effort = "high") then (false, s)
  else (true, { s with reasoning_effort := some effort })

/-- `LLMService.get_available_providers`. -/
def get_available_providers (s : LLMState) : List String :=
  s.config.api.map Prod.fst

/-- `LLMService.get_available_models`. -/
def get_available_models (s : LLMState) (provider : Option String) : List ModelInfo :=
  let p := provider.getD s.api_provider
  ((alookup s.config.api p).getD emptyProviderConfig).models

/-! ## The request/dispatch layer

The outside world that `send_request` interacts with — the progress
callback, `requests.post`, and the Gemini SDK — is supplied as an explicit
environment.  An `Except.error m` threaded through a builder means a Python
exception with message `m` is in flight; `send_request` catches it at its
outermost level, except around the code that runs before its `try` block. -/

/-- An HTTP response as seen by the builders: `status_code`, the parsed
JSON body (`response.json()`) and the raw text (`response.text`). -/
structure HttpResp where
  status : Int
  body : JVal
  text : String

/-- An outgoing HTTP request (`requests.post(url, headers=..., json=...)`). -/
structure HttpRequest where
  url : String
  headers : List (String × String)
  body : List (String × JVal)

/-- The request handed to the Gemini SDK (`GenerativeModel(...)` plus the
`generate_content` call): model name, generation configuration, prompt, and
whether a `thinking` generation option is passed. -/
structure GemRequest where
  model_name : Option String
  generation_config : List (String × JVal)
  prompt : String
  thinkingOpt : Bool

/-- A Gemini SDK response: optional usage metadata
(prompt/candidates/total token counts) and the `.text` property, which can
itself raise. -/
structure GemResp where
  usage : Option (Int × Int × Int)
  textResult : Except String String

/-- How the lazy Gemini client initialization plays out:
the `importlib.util.find_spec` check fails, the import fails, `configure`
raises, or everything succeeds. -/
inductive GemClientInit where
  | succeeds
  | notFound
  | importFails
  | raises (msg : String)

/-- The environment of one `send_request` call: the optional progress
callback (returning `some m` means the callback raises an exception with
message `m` when invoked with that value), the HTTP transport (which can
raise instead of returning a response), and the Gemini SDK. -/
structure Env where
  cb : Option (Int → Option String)
  post : HttpRequest → Except String HttpResp
  gemInit : GemClientInit
  generate : GemRequest → Except String GemResp

/-- `if on_progress: on_progress(v)` — extend the trace of delivered values
and report whether the callback raised. -/
def emit (env : Env) (tr : List Int) (v : Int) : List Int × Option String :=
  match env.cb with
  | none => (tr, none)
  | some f => (tr ++ [v], f v)

/-- The observable outcome of one `send_request` call: the returned string
(or, for `Except.error m`, an exception with message `m` propagating to the
caller), the sequence of progress values delivered to the callback, the
number of network calls issued (HTTP posts plus SDK generate calls), and the
session state after the call. -/
structure Outcome where
  result : Except String String
  progress : List Int
  netcalls : Nat
  state : LLMState

/-- `LLMService._initialize_gemini_client`: when no client handle exists and
a key is set, check the package, import and configure it; every failure is
returned as an error string, never raised. -/
def initialize_gemini_client (s : LLMState) (env : Env) : Option String × LLMState :=
  if s.gemini_client = false ∧ optStrTruthy s.api_key then
    match env.gemInit with
    | .notFound =>
        (some "Error: google-genai package is not installed. Please install it with 'pip install google-genai'", s)
    | .importFails =>
        (some "Error: Could not import google-genai. Please install it with 'pip install google-genai'", s)
    | .raises m => (some ("Error initializing Gemini client: " ++ m), s)
    | .succeeds => (none, { s with gemini_client := true })
  else (none, s)

/-- The headers of the Anthropic request: `x-api-key`, `anthropic-version`
(default `2023-06-01`), `content-type`, plus the long-output beta header
when the capability `supports_long_output` is set. -/
def anthropicHeaders (s : LLMState) : List (String × String) :=
  let base := [("x-api-key", s.api_key.getD ""),
               ("anthropic-version", s.api_config.version.getD "2023-06-01"),
               ("content-type", "application/json")]
  if capTruthy (get_model_capabilities s) "supports_long_output" then
    base ++ [("anthropic-beta", "output-128k-2025-02-19")]
  else base

/-- Serialize the selected model id into a request body field. -/
def jModelId : Option String → JVal
  | none => .null
  | some m => .str m

/-- The body of the Anthropic request: fixed `model` and `messages` fields,
a `thinking` block when extended thinking is enabled and supported, and then
every session parameter copied in with dictionary assignment (so parameters
overwrite the fixed fields).  Reading the budget with no
`extended_thinking_budget` attribute raises. -/
def anthropicBody (s : LLMState) (prompt : String) : Except String (List (String × JVal)) :=
  let caps := get_model_capabilities s
  let data := [("model", jModelId s.model_id),
               ("messages", .arr [.obj [("role", .str "user"), ("content", .str prompt)]])]
  let dataE : Except String (List (String × JVal)) :=
    if s.use_extended_thinking = some true ∧ capTruthy caps "supports_extended_thinking" then
      match s.extended_thinking_budget with
      | some b =>
          .ok (dset data "thinking" (.obj [("type", .str "enabled"), ("budget_tokens", .num b)]))
      | none => .error "AttributeError: extended_thinking_budget"
    else .ok data
  match dataE with
  | .error m => .error m
  | .ok d => .ok (s.parameters.foldl (fun acc kv => dset acc kv.fst kv.snd) d)

/-- The text-extraction loop over the content blocks of an Anthropic
HTTP-200 response: concatenate `block.get("text", "")` of every block whose
`type` is `"text"`, left to right; a non-dictionary block or a non-string
`text` value raises. -/
def extractText : List JVal → Except String String
  | [] => .ok ""
  | b :: rest =>
    match b with
    | .obj fs =>
      match alookup fs "type" with
      | some (.str "text") =>
        match alookup fs "text" with
        | some (.str t) =>
            (extractText rest).map (fun r => t ++ r)
        | none => extractText rest
        | some _ => .error "TypeError: can only concatenate str to str"
      | _ => extractText rest
    | _ => .error "AttributeError: content block has no attribute get"

/-- The usage dictionary of a 200 response body, when present
(`"usage" in result` followed by `result["usage"]`). -/
def bodyUsage (body : JVal) : Option JVal :=
  match body with
  | .obj fields => alookup fields "usage"
  | _ => none

/-- Record usage counters from a 200 response body into the session
(`if "usage" in result: self.last_usage = result["usage"]`). -/
def recordUsage (s : LLMState) (body : JVal) : LLMState :=
  match bodyUsage body with
  | some u => { s with last_usage := u }
  | none => s

/-- The non-200 error string,
`f"Error: API returned status code {...}\n{...}"`. -/
def statusError (resp : HttpResp) : String :=
  "Error: API returned status code " ++ toString resp.status ++ "\n" ++ resp.text

/-- Parse an Anthropic HTTP-200 body: `ok none` is the
`"content" not present or empty` branch (which yields
`Error: Empty response from API`), `ok (some t)` the extracted text
(possibly the empty string), `error` a raised exception.  A body that is
not a JSON object, a `content` value without a length, and a non-empty
non-array `content` all raise, as the corresponding Python operations do. -/
def parseAnthropic200 (body : JVal) : Except String (Option String) :=
  match body with
  | .obj fields =>
    match alookup fields "content" with
    | none => .ok none
    | some content =>
      match pyLen content with
      | .error m => .error m
      | .ok n =>
        if n > 0 then
          match content with
          | .arr blocks => (extractText blocks).map some
          | _ => .error "AttributeError: content block has no attribute get"
        else .ok none
  | _ => .error "TypeError: argument of type int is not iterable"

/-- `LLMService._anthropic_request`: build the body, report 30, post,
report 90, then on status 200 extract the text (empty content is the
empty-response error; empty concatenation is returned as is), record usage,
report 100; any non-200 status yields the status-code error string.
`Except.error` results are exceptions still in flight. -/
def anthropic_request (s : LLMState) (prompt : String) (env : Env) (tr : List Int) : Outcome :=
  match anthropicBody s prompt with
  | .error m => ⟨.error m, tr, 0, s⟩
  | .ok data =>
    match emit env tr 30 with
    | (tr1, some m) => ⟨.error m, tr1, 0, s⟩
    | (tr1, none) =>
      let req : HttpRequest :=
        ⟨s.api_config.url.getD "https://api.anthropic.com/v1/messages", anthropicHeaders s, data⟩
      match env.post req with
      | .error m => ⟨.error m, tr1, 1, s⟩
      | .ok resp =>
        match emit env tr1 90 with
        | (tr2, some m) => ⟨.error m, tr2, 1, s⟩
        | (tr2, none) =>
          if resp.status = 200 then
            match parseAnthropic200 resp.body with
            | .error m => ⟨.error m, tr2, 1, s⟩
            | .ok none => ⟨.ok "Error: Empty response from API", tr2, 1, s⟩
            | .ok (some text) =>
              let s1 := recordUsage s resp.body
              match emit env tr2 100 with
              | (tr3, some m) => ⟨.error m, tr3, 1, s1⟩
              | (tr3, none) => ⟨.ok text, tr3, 1, s1⟩
          else ⟨.ok (statusError resp), tr2, 1, s⟩

/-- The body of the OpenAI request: fixed `model` and `messages` fields;
when the capability `supports_reasoning` is set, the configured
`max_tokens` parameter is written as `max_completion_tokens` and the
`reasoning_effort` attribute (when present) is added; otherwise
`max_tokens` is written as is.  Then every parameter is copied in, the
copy skipping `max_tokens` exactly when `supports_reasoning` is set
(`if param != "max_tokens" or not model_caps.get("supports_reasoning", False)`). -/
def openaiBody (s : LLMState) (prompt : String) : List (String × JVal) :=
  let caps := get_model_capabilities s
  let data := [("model", jModelId s.model_id),
               ("messages", .arr [.obj [("role", .str "user"), ("content", .str prompt)]])]
  let data :=
    if capTruthy caps "supports_reasoning" then
      let d1 := match alookup s.parameters "max_tokens" with
        | some v => dset data "max_completion_tokens" v
        | none => data
      match s.reasoning_effort with
      | some e => dset d1 "reasoning_effort" (.str e)
      | none => d1
    else
      match alookup s.parameters "max_tokens" with
      | some v => dset data "max_tokens" v
      | none => data
  s.parameters.foldl
    (fun acc kv =>
      if kv.fst ≠ "max_tokens" ∨ ¬ capTruthy caps "supports_reasoning"
      then dset acc kv.fst kv.snd else acc)
    data

/-- Parse an OpenAI HTTP-200 body: `ok none` is the missing/empty
`choices` branch, `ok (some t)` the content of the first choice's message;
malformed nesting raises, as the chained Python subscripts do. -/
def parseOpenai200 (body : JVal) : Except String (Option String) :=
  match body with
  | .obj fields =>
    match alookup fields "choices" with
    | none => .ok none
    | some choices =>
      match pyLen choices with
      | .error m => .error m
      | .ok n =>
        if n > 0 then
          match choices with
          | .arr (c :: _) =>
            match c with
            | .obj cf =>
              match alookup cf "message" with
              | some (.obj mf) =>
                match alookup mf "content" with
                | some (.str t) => .ok (some t)
                | some _ => .error "TypeError: message content is not a string"
                | none => .error "KeyError: content"
              | some _ => .error "TypeError: choice message is not an object"
              | none => .error "KeyError: message"
            | _ => .error "TypeError: choice is not an object"
          | _ => .error "TypeError: choices is not subscriptable"
        else .ok none
  | _ => .error "TypeError: argument of type int is not iterable"

/-- `LLMService._openai_request`: same dispatch shape as the Anthropic
builder with bearer-token headers and the OpenAI body and parsing. -/
def openai_request (s : LLMState) (prompt : String) (env : Env) (tr : List Int) : Outcome :=
  let data := openaiBody s prompt
  match emit env tr 30 with
  | (tr1, some m) => ⟨.error m, tr1, 0, s⟩
  | (tr1, none) =>
    let req : HttpRequest :=
      ⟨s.api_config.url.getD "https://api.openai.com/v1/chat/completions",
       [("Authorization", "Bearer " ++ s.api_key.getD ""), ("Content-Type", "application/json")],
       data⟩
    match env.post req with
    | .error m => ⟨.error m, tr1, 1, s⟩
    | .ok resp =>
      match emit env tr1 90 with
      | (tr2, some m) => ⟨.error m, tr2, 1, s⟩
      | (tr2, none) =>
        if resp.status = 200 then
          match parseOpenai200 resp.body with
          | .error m => ⟨.error m, tr2, 1, s⟩
          | .ok none => ⟨.ok "Error: Empty response from API", tr2, 1, s⟩
          | .ok (some text) =>
            let s1 := recordUsage s resp.body
            match emit env tr2 100 with
            | (tr3, some m) => ⟨.error m, tr3, 1, s1⟩
            | (tr3, none) => ⟨.ok text, tr3, 1, s1⟩
        else ⟨.ok (statusError resp), tr2, 1, s⟩

/-- The Gemini generation configuration, with the fallbacks of the source
(`temperature` 0.7, `max_output_tokens` 8192, `top_p` 1.0, `top_k` 32). -/
def geminiGenConfig (s : LLMState) : List (String × JVal) :=
  [("temperature", (alookup s.parameters "temperature").getD (.flt 0.7)),
   ("max_output_tokens", (alookup s.parameters "max_output_tokens").getD (.num 8192)),
   ("top_p", (alookup s.parameters "top_p").getD (.flt 1)),
   ("top_k", (alookup s.parameters "top_k").getD (.num 32))]

/-- `LLMService._gemini_request`: initialize the lazy client (failures are
returned as error strings before any progress), report 20 (outside the
builder's own `try`, so a raising callback propagates to `send_request`),
build the request, report 40, generate, report 90, record usage, report
100, and read `.text`; everything inside the builder's `try` is converted
to `Error from Gemini API: ...`. -/
def gemini_request (s : LLMState) (prompt : String) (env : Env) (tr : List Int) : Outcome :=
  match initialize_gemini_client s env with
  | (some err, s0) => ⟨.ok err, tr, 0, s0⟩
  | (none, s0) =>
    match emit env tr 20 with
    | (tr1, some m) => ⟨.error m, tr1, 0, s0⟩
    | (tr1, none) =>
      let caps := get_model_capabilities s0
      let req : GemRequest :=
        ⟨s0.model_id, geminiGenConfig s0, prompt,
         capTruthy caps "supports_thinking" ∧ s0.use_thinking.getD false⟩
      match emit env tr1 40 with
      | (tr2, some m) => ⟨.ok ("Error from Gemini API: " ++ m), tr2, 0, s0⟩
      | (tr2, none) =>
        match env.generate req with
        | .error m => ⟨.ok ("Error from Gemini API: " ++ m), tr2, 1, s0⟩
        | .ok resp =>
          match emit env tr2 90 with
          | (tr3, some m) => ⟨.ok ("Error from Gemini API: " ++ m), tr3, 1, s0⟩
          | (tr3, none) =>
            let s1 := match resp.usage with
              | some (p, c, t) =>
                  { s0 with last_usage := .obj [("prompt_tokens", .num p),
                      ("completion_tokens", .num c), ("total_tokens", .num t)] }
              | none => s0
            match emit env tr3 100 with
            | (tr4, some m) => ⟨.ok ("Error from Gemini API: " ++ m), tr4, 1, s1⟩
            | (tr4, none) =>
              match resp.textResult with
              | .ok t => ⟨.ok t, tr4, 1, s1⟩
              | .error m => ⟨.ok ("Error from Gemini API: " ++ m), tr4, 1, s1⟩

/-- `LLMService.send_request`: the two cheap preconditions, the entry
progress report (outside the `try` block — an exception raised there
propagates), the provider dispatch inside `try`, and the outermost
conversion of any in-flight exception to `Error: {message}`. -/
def send_request (s : LLMState) (prompt : String) (env : Env) : Outcome :=
  if ¬ optStrTruthy s.api_key then ⟨.ok "Error: API key not provided", [], 0, s⟩
  else if ¬ optStrTruthy s.model_id then ⟨.ok "Error: No model selected", [], 0, s⟩
  else
    match emit env [] 10 with
    | (tr, some m) => ⟨.error m, tr, 0, s⟩
    | (tr, none) =>
      let inner : Outcome :=
        if s.api_provider = "anthropic" then anthropic_request s prompt env tr
        else if s.api_provider = "openai" then openai_request s prompt env tr
        else if s.api_provider = "gemini" then gemini_request s prompt env tr
        else ⟨.ok ("Error: Unsupported provider " ++ s.api_provider), tr, 0, s⟩
      match inner.result with
      | .error m => { inner with result := .ok ("Error: " ++ m) }
      | .ok _ => inner

/-! ## The default configuration of `config.py` (its `api` section) -/

/-- The Anthropic provider entry of `DEFAULT_CONFIG["api"]`.  Note that its
model entries carry no `capabilities` key at all. -/
def anthropicDefaultConfig : ProviderConfig :=
  { url := some "https://api.anthropic.com/v1/messages"
    version := none
    models :=
      [ ⟨some "claude-3-opus-20240229", "Claude 3 Opus", []⟩,
        ⟨some "claude-3-sonnet-20240229", "Claude 3 Sonnet", []⟩,
        ⟨some "claude-3-haiku-20240307", "Claude 3 Haiku", []⟩,
        ⟨some "claude-3-7-sonnet-20250219", "Claude 3.7 Sonnet", []⟩ ]
    default_model := some "claude-3-7-sonnet-20250219" }

/-- The OpenAI provider entry of `DEFAULT_CONFIG["api"]`. -/
def openaiDefaultConfig : ProviderConfig :=
  { url := some "https://api.openai.com/v1/chat/completions"
    version := some "2023-06-01"
    models :=
      [ ⟨some "o1", "OpenAI o1",
          [("context_window", .num 200000), ("max_tokens_default", .num 16000),
           ("max_completion_tokens", .num 100000), ("supports_reasoning", .bool true)]⟩,
        ⟨some "o3-mini", "OpenAI o3-mini",
          [("context_window", .num 200000), ("max_tokens_default", .num 16000),
           ("max_completion_tokens", .num 100000), ("supports_reasoning", .bool true)]⟩,
        ⟨some "gpt-4.5-preview", "GPT-4.5 Preview",
          [("context_window", .num 128000), ("max_tokens_default", .num 16384)]⟩,
        ⟨some "gpt-4o", "GPT-4o",
          [("context_window", .num 128000), ("max_tokens_default", .num 16384)]⟩ ]
    default_model := some "gpt-4o" }

/-- The Gemini provider entry of `DEFAULT_CONFIG["api"]` (the `library`
key is not consumed by the service and is not modelled). -/
def geminiDefaultConfig : ProviderConfig :=
  { url := none
    version := none
    models :=
      [ ⟨some "gemini-1.5-pro", "Gemini 1.5 Pro",
          [("context_window", .num 2097152), ("max_tokens_default", .num 8192),
           ("input_token_limit", .num 2097152), ("output_token_limit", .num 8192),
           ("supports_vision", .bool true)]⟩,
        ⟨some "gemini-2.0-pro-exp", "Gemini 2.0 Pro (Experimental)",
          [("context_window", .num 1048576), ("max_tokens_default", .num 8192),
           ("input_token_limit", .num 1048576), ("output_token_limit", .num 8192),
           ("supports_vision", .bool true)]⟩,
        ⟨some "gemini-2.0-flash", "Gemini 2.0 Flash",
          [("context_window", .num 1048576), ("max_tokens_default", .num 8192),
           ("input_token_limit", .num 1048576), ("output_token_limit", .num 8192),
           ("supports_vision", .bool true), ("supports_audio", .bool true),
           ("supports_video", .bool true)]⟩,
        ⟨some "gemini-2.0-flash-thinking-exp", "Gemini 2.0 Flash Thinking",
          [("context_window", .num 1048576), ("max_tokens_default", .num 8192),
           ("input_token_limit", .num 1048576), ("output_token_limit", .num 8192),
           ("supports_thinking", .bool true), ("supports_vision", .bool true)]⟩ ]
    default_model := some "gemini-2.0-flash" }

/-- `DEFAULT_CONFIG` restricted to the keys the service consumes. -/
def defaultConfig : Config :=
  { api := [("anthropic", anthropicDefaultConfig), ("openai", openaiDefaultConfig),
            ("gemini", geminiDefaultConfig)]
    default_api := some "anthropic" }

/-- A configuration whose Anthropic flagship model carries the capability
set described for it in the specification scenario
(`max_tokens_default` 8192, `supports_extended_thinking`,
`max_tokens_extended` 64000): such capabilities arrive via the merged
project configuration file. -/
def extThinkingConfig : Config :=
  { api := [("anthropic",
      { url := some "https://api.anthropic.com/v1/messages"
        version := none
        models :=
          [ ⟨some "claude-3-7-sonnet-20250219", "Claude 3.7 Sonnet",
              [("max_tokens_default", .num 8192),
               ("supports_extended_thinking", .bool true),
               ("max_tokens_extended", .num 64000)]⟩ ]
        default_model := some "claude-3-7-sonnet-20250219" })]
    default_api := some "anthropic" }

/-! ## Specification-side definitions (for refinement comparisons) -/

/-- The `text` contribution of one content block per the specification's
words: the `text` field of a block whose `type` is `"text"`, nothing for
any other block. -/
def pickText : JVal → Option String
  | .obj fs =>
    match alookup fs "type" with
    | some (.str "text") =>
      some (match alookup fs "text" with
        | some (.str t) => t
        | _ => "")
    | _ => none
  | _ => none

/-- Stated from the specification's words, for comparison with the code's
extraction loop: the concatenation, in array order, of the `text` field of
exactly those content blocks whose `type` is `"text"` (non-text blocks
skipped). -/
def specTextConcat (blocks : List JVal) : String :=
  (blocks.filterMap pickText).foldr (fun t acc => t ++ acc) ""

/-- A content block the extraction loop can process without raising: a
JSON object whose `text` field, when the block is text-typed, is absent or
a string. -/
def wfBlock : JVal → Bool
  | .obj fs =>
    match alookup fs "type" with
    | some (.str "text") =>
      match alookup fs "text" with
      | none => true
      | some (.str _) => true
      | some _ => false
    | _ => true
  | _ => false

/-- A session state whose extended-thinking attributes are coherent: if the
enabled flag is set and the capability is supported, the budget attribute
exists.  Every state produced by the constructor and the mutators satisfies
this; the Anthropic builder raises outside of it. -/
def thinkOk (s : LLMState) : Prop :=
  s.use_extended_thinking = some true ∧
      capTruthy (get_model_capabilities s) "supports_extended_thinking" = true →
    s.extended_thinking_budget.isSome = true

instance (s : LLMState) : Decidable (thinkOk s) := by
  unfold thinkOk; infer_instance

/-- The progress callback of an environment never raises. -/
def cbOk (env : Env) : Prop :=
  ∀ f v, env.cb = some f → f v = none

/-! ## Shared lemmas -/

theorem alookup_dset_self {α : Type} (d : List (String × α)) (k : String) (v : α) :
    alookup (dset d k v) k = some v := by
  induction d with
  | nil => simp [dset, alookup]
  | cons hd tl ih =>
    obtain ⟨k1, v1⟩ := hd
    by_cases h : k1 = k
    · subst h; simp [dset, alookup]
    · simp [dset, alookup, h, ih]

theorem alookup_dset_ne {α : Type} (d : List (String × α)) (k k2 : String) (v : α)
    (h : k2 ≠ k) : alookup (dset d k v) k2 = alookup d k2 := by
  induction d with
  | nil => simp [dset, alookup, Ne.symm h]
  | cons hd tl ih =>
    obtain ⟨k1, v1⟩ := hd
    by_cases h1 : k1 = k
    · subst h1; simp [dset, alookup, Ne.symm h]
    · simp [dset, alookup, h1, ih]

theorem alookup_none_of_keys {α : Type} (ps : List (String × α)) (k : String)
    (h : k ∉ ps.map Prod.fst) : alookup ps k = none := by
  induction ps with
  | nil => rfl
  | cons hd tl ih =>
    obtain ⟨k1, v1⟩ := hd
    simp only [List.map_cons, List.mem_cons] at h
    push_neg at h
    simp only [alookup, if_neg (fun hh : k1 = k => h.1 hh.symm)]
    exact ih h.2

/-- The parameter-copy loop of the Anthropic builder does not touch keys the
parameter dictionary does not contain. -/
theorem anthropic_fold_lookup_none (ps d : List (String × JVal)) (k : String)
    (h : alookup ps k = none) :
    alookup (ps.foldl (fun acc kv => dset acc kv.fst kv.snd) d) k = alookup d k := by
  induction ps generalizing d with
  | nil => simp
  | cons hd tl ih =>
    obtain ⟨k1, v1⟩ := hd
    simp only [alookup] at h
    by_cases h1 : k1 = k
    · simp [h1] at h
    · simp only [List.foldl_cons]
      rw [ih _ (by simpa [h1] using h), alookup_dset_ne _ _ _ _ (fun hh => h1 hh.symm)]

/-- On a dictionary with unique keys, the parameter-copy loop of the
Anthropic builder writes each contained key with its dictionary value. -/
theorem anthropic_fold_lookup_mem (ps d : List (String × JVal)) (k : String) (v : JVal)
    (hnd : (ps.map Prod.fst).Nodup) (h : alookup ps k = some v) :
    alookup (ps.foldl (fun acc kv => dset acc kv.fst kv.snd) d) k = some v := by
  induction ps generalizing d with
  | nil => simp [alookup] at h
  | cons hd tl ih =>
    obtain ⟨k1, v1⟩ := hd
    simp only [List.map_cons, List.nodup_cons] at hnd
    simp only [alookup] at h
    by_cases h1 : k1 = k
    · rw [if_pos h1] at h
      injection h with hv
      subst hv
      subst h1
      simp only [List.foldl_cons]
      rw [anthropic_fold_lookup_none _ _ _ (alookup_none_of_keys tl k1 hnd.1),
        alookup_dset_self]
    · rw [if_neg h1] at h
      simp only [List.foldl_cons]
      exact ih _ hnd.2 h

/-- Under a never-raising callback, one progress report extends the trace
(when a callback is supplied) and never raises. -/
theorem emit_cbOk (env : Env) (tr : List Int) (v : Int) (h : cbOk env) :
    emit env tr v = (if env.cb.isSome then tr ++ [v] else tr, none) := by
  unfold emit
  rcases hcb : env.cb with _ | f
  · simp
  · simp [h f v hcb]

/-! ## Concrete fixtures for counterexamples and witnesses -/

/-- A freshly constructed session on the default configuration with an API
key supplied: the state a run of the tool starts from. -/
def readyState : LLMState := set_api_key (initLLM defaultConfig none) "sk-test"

/-- An environment whose progress callback raises `boom` when invoked with
the entry milestone value 10 and returns normally otherwise. -/
def envRaise10 : Env :=
  { cb := some (fun v => if v = 10 then some "boom" else none)
    post := fun _ => .error "offline"
    gemInit := .succeeds
    generate := fun _ => .error "offline" }

/-- An environment with a well-behaved callback and an unreachable
transport. -/
def envBenign : Env :=
  { cb := some (fun _ => none)
    post := fun _ => .error "offline"
    gemInit := .succeeds
    generate := fun _ => .error "offline" }

/-- C1, counterexample.  On a fully configured session (default Anthropic
provider and model, key set) with a progress callback that raises when
invoked, `send_request` propagates that exception to the caller instead of
returning an error string: the entry progress report at milestone 10 sits
outside the `try` block of `send`. -/
theorem C1_counterexample :
    (send_request readyState "hello" envRaise10).result = .error "boom" := by
  rfl

/-- C1, amended.  Provided the progress callback does not raise at the
entry milestone 10, every exception raised anywhere during the operation —
by the transport, the SDK, the response parsing, or the callback at any
later milestone — is caught at the outermost level and the call returns a
string; an exception raised by the callback at milestone 10 is the sole
uncaught path. -/
theorem C1_caught (s : LLMState) (prompt : String) (env : Env)
    (h10 : ∀ f, env.cb = some f → f 10 = none) :
    ∃ r, (send_request s prompt env).result = .ok r := by
  unfold send_request
  by_cases hkey : optStrTruthy s.api_key
  · by_cases hmodel : optStrTruthy s.model_id
    · simp only [hkey, hmodel, Bool.true_eq_false, not_true_eq_false, if_false]
      have hemit : (emit env [] 10).2 = none := by
        unfold emit
        rcases hcb : env.cb with _ | f
        · rfl
        · exact h10 f hcb
      rcases he : emit env [] 10 with ⟨tr, e⟩
      rw [he] at hemit
      simp only at hemit
      subst hemit
      simp only
      rcases hres : (if s.api_provider = "anthropic" then anthropic_request s prompt env tr
        else if s.api_provider = "openai" then openai_request s prompt env tr
        else if s.api_provider = "gemini" then gemini_request s prompt env tr
        else ⟨.ok ("Error: Unsupported provider " ++ s.api_provider), tr, 0, s⟩).result
        with m | r
      · exact ⟨"Error: " ++ m, by simp [hres]⟩
      · exact ⟨r, by simp [hres]⟩
    · exact ⟨"Error: No model selected", by simp [hkey, hmodel]⟩
  · exact ⟨"Error: API key not provided", by simp [hkey]⟩

/-- C1, witness: the amended theorem applied to the ready session and a
benign environment. -/
theorem C1_caught_witness :
    ∃ r, (send_request readyState "hello" envBenign).result = .ok r :=
  C1_caught readyState "hello" envBenign
    (fun f hf => by
      simp only [envBenign] at hf
      injection hf with h3
      rw [← h3])

/-! ## Frame lemmas for `configure_for_model` -/

theorem configure_model_id (s : LLMState) :
    (configure_for_model s).model_id = s.model_id := by
  simp only [configure_for_model]
  repeat' split
  all_goals rfl

theorem configure_last_usage (s : LLMState) :
    (configure_for_model s).last_usage = s.last_usage := by
  simp only [configure_for_model]
  repeat' split
  all_goals rfl

theorem configure_api_provider (s : LLMState) :
    (configure_for_model s).api_provider = s.api_provider := by
  simp only [configure_for_model]
  repeat' split
  all_goals rfl

theorem configure_api_config (s : LLMState) :
    (configure_for_model s).api_config = s.api_config := by
  simp only [configure_for_model]
  repeat' split
  all_goals rfl

theorem configure_uet (s : LLMState) :
    (configure_for_model s).use_extended_thinking = s.use_extended_thinking ∨
      (configure_for_model s).use_extended_thinking = some false := by
  simp only [configure_for_model]
  repeat' split
  all_goals simp

theorem configure_re (s : LLMState) :
    (configure_for_model s).reasoning_effort = s.reasoning_effort ∨
      (configure_for_model s).reasoning_effort = some "medium" := by
  simp only [configure_for_model]
  repeat' split
  all_goals simp

theorem configure_ut (s : LLMState) :
    (configure_for_model s).use_thinking = s.use_thinking ∨
      (configure_for_model s).use_thinking = some false := by
  simp only [configure_for_model]
  repeat' split
  all_goals simp

/-! ## C4: `set_model` and mode flags -/

/-- A session that selected the Gemini thinking model and enabled thinking,
built entirely through the public mutators. -/
def thinkingOnState : LLMState :=
  (set_thinking
    (set_model (set_provider (set_api_key (initLLM defaultConfig none) "sk-test") "gemini").2
      "gemini-2.0-flash-thinking-exp")
    true).2

/-- C4, counterexample.  `set_model` does not clear the `use_thinking`
flag: switching from the Gemini thinking model (thinking enabled) to
`gemini-2.0-flash` — a configured model that does not support thinking —
carries the enabled thinking flag over to the new model. -/
theorem C4_counterexample :
    thinkingOnState.use_thinking = some true ∧
      (set_model thinkingOnState "gemini-2.0-flash").use_thinking = some true := by
  exact ⟨rfl, rfl⟩

/-- C4, amended.  `set_model` accepts any string with no existence check
and clears `use_extended_thinking`, `extended_thinking_budget` and
`reasoning_effort` before re-deriving defaults (its result does not depend
on those three attributes of the previous state, and afterwards no
extended-thinking or reasoning mode is enabled) — but it does **not**
clear `use_thinking`: the thinking flag is carried over unless the newly
configured model re-initializes it to disabled. -/
theorem C4_set_model (s : LLMState) (m : String)
    (a : Option Bool) (b : Option Int) (r : Option String) :
    (set_model s m).model_id = some m ∧
    set_model
        { s with use_extended_thinking := a, extended_thinking_budget := b,
                 reasoning_effort := r } m = set_model s m ∧
    ((set_model s m).use_extended_thinking = none ∨
      (set_model s m).use_extended_thinking = some false) ∧
    ((set_model s m).reasoning_effort = none ∨
      (set_model s m).reasoning_effort = some "medium") ∧
    ((set_model s m).use_thinking = s.use_thinking ∨
      (set_model s m).use_thinking = some false) := by
  have huet := configure_uet { s with model_id := some m, use_extended_thinking := none, extended_thinking_budget := none, reasoning_effort := none }
  have hre := configure_re { s with model_id := some m, use_extended_thinking := none, extended_thinking_budget := none, reasoning_effort := none }
  have hut := configure_ut { s with model_id := some m, use_extended_thinking := none, extended_thinking_budget := none, reasoning_effort := none }
  refine ⟨by rw [set_model, configure_model_id], rfl, ?_, ?_, ?_⟩
  · rcases huet with h | h
    · exact Or.inl (by rw [set_model, h])
    · exact Or.inr (by rw [set_model, h])
  · rcases hre with h | h
    · exact Or.inl (by rw [set_model, h])
    · exact Or.inr (by rw [set_model, h])
  · rcases hut with h | h
    · exact Or.inl (by rw [set_model, h])
    · exact Or.inr (by rw [set_model, h])

/-! ## C6: `set_provider` -/

/-- On a known provider, `set_provider` runs `configure_for_model` on a
state whose model is the provider default and whose four dynamic mode
attributes have been deleted. -/
theorem set_provider_success (s : LLMState) (p : String) (pc : ProviderConfig)
    (h : alookup s.config.api p = some pc) :
    ∃ X : LLMState, set_provider s p = (true, configure_for_model X) ∧
      X.model_id = pc.default_model ∧ X.use_extended_thinking = none ∧
      X.use_thinking = none ∧ X.reasoning_effort = none ∧
      X.extended_thinking_budget = none := by
  unfold set_provider
  rw [h]
  dsimp only
  by_cases hc : s.api_provider ≠ p ∧ p = "gemini"
  · exact ⟨_, by rw [if_pos hc], rfl, rfl, rfl, rfl, rfl⟩
  · exact ⟨_, by rw [if_neg hc], rfl, rfl, rfl, rfl, rfl⟩

/-- C6.  `set_provider` on an unknown name returns false and leaves the
whole session state unchanged (provider, model, parameters and flags
included); on a configured provider it returns true, resets the model to
the provider's `default_model`, and leaves every mode flag cleared: the
extended-thinking and thinking flags are absent or disabled and the
reasoning effort is absent or the re-derived default `"medium"`, whatever
their values before the switch. -/
theorem C6_set_provider (s : LLMState) (p : String) :
    (alookup s.config.api p = none → set_provider s p = (false, s)) ∧
    (∀ pc, alookup s.config.api p = some pc →
      (set_provider s p).1 = true ∧
      (set_provider s p).2.model_id = pc.default_model ∧
      ((set_provider s p).2.use_extended_thinking = none ∨
        (set_provider s p).2.use_extended_thinking = some false) ∧
      ((set_provider s p).2.use_thinking = none ∨
        (set_provider s p).2.use_thinking = some false) ∧
      ((set_provider s p).2.reasoning_effort = none ∨
        (set_provider s p).2.reasoning_effort = some "medium")) := by
  constructor
  · intro h
    unfold set_provider
    rw [h]
  · intro pc h
    obtain ⟨X, hX, hm, huet, hut, hre, _⟩ := set_provider_success s p pc h
    rw [hX]
    refine ⟨rfl, ?_, ?_, ?_, ?_⟩
    · rw [configure_model_id, hm]
    · rcases configure_uet X with h2 | h2
      · exact Or.inl (by rw [h2, huet])
      · exact Or.inr h2
    · rcases configure_ut X with h2 | h2
      · exact Or.inl (by rw [h2, hut])
      · exact Or.inr h2
    · rcases configure_re X with h2 | h2
      · exact Or.inl (by rw [h2, hre])
      · exact Or.inr h2

/-- C6, witness: an unknown provider name is rejected with the state
untouched, and switching the fresh default session to OpenAI selects its
configured default model `gpt-4o`. -/
theorem C6_set_provider_witness :
    set_provider (initLLM defaultConfig none) "azure" = (false, initLLM defaultConfig none) ∧
    (set_provider (initLLM defaultConfig none) "openai").2.model_id = some "gpt-4o" := by
  constructor
  · exact (C6_set_provider (initLLM defaultConfig none) "azure").1 rfl
  · have h := (C6_set_provider (initLLM defaultConfig none) "openai").2 openaiDefaultConfig rfl
    rw [h.2.1]
    rfl

/-! ## C7: `set_extended_thinking` -/

/-- A session on a configuration whose flagship Anthropic model reports
the extended-thinking capabilities of the specification scenario. -/
def extState : LLMState := set_api_key (initLLM extThinkingConfig none) "sk-test"

/-- C7, counterexample.  The budget is clamped only from above: a
requested budget of `-1` on the extended-thinking model is stored as `-1`,
a negative value outside the claimed interval `[0, 64000]`. -/
theorem C7_counterexample :
    (set_extended_thinking extState true (some (-1))).2.extended_thinking_budget =
        some (-1) ∧ (-1 : Int) < 0 := by
  exact ⟨rfl, by decide⟩

/-- C7, amended.  `set_extended_thinking` fails (returning false, state
unchanged) when the active model does not report
`supports_extended_thinking`; on success it stores the enabled flag, and a
given budget is stored as `min(budget, max_tokens_extended-or-64000)` —
clamped from above only, so the stored value never exceeds the limit and
lies in `[0, limit]` whenever the request and the limit are non-negative,
but a negative request is stored unchanged. -/
theorem C7_set_extended_thinking (s : LLMState) (enabled : Bool) (budget : Option Int) :
    (capTruthy (get_model_capabilities s) "supports_extended_thinking" = false →
      set_extended_thinking s enabled budget = (false, s)) ∧
    (capTruthy (get_model_capabilities s) "supports_extended_thinking" = true →
      (set_extended_thinking s enabled budget).1 = true ∧
      (set_extended_thinking s enabled budget).2.use_extended_thinking = some enabled ∧
      (budget = none →
        (set_extended_thinking s enabled budget).2.extended_thinking_budget =
          s.extended_thinking_budget) ∧
      (∀ b, budget = some b →
        (set_extended_thinking s enabled budget).2.extended_thinking_budget =
            some (min b (capNum (get_model_capabilities s) "max_tokens_extended" 64000)) ∧
        min b (capNum (get_model_capabilities s) "max_tokens_extended" 64000) ≤
            capNum (get_model_capabilities s) "max_tokens_extended" 64000 ∧
        (0 ≤ b → 0 ≤ capNum (get_model_capabilities s) "max_tokens_extended" 64000 →
          0 ≤ min b (capNum (get_model_capabilities s) "max_tokens_extended" 64000)))) := by
  constructor
  · intro h
    unfold set_extended_thinking
    simp [h]
  · intro h
    unfold set_extended_thinking
    simp only [h, Bool.true_eq_false, not_true_eq_false, if_false, not_false_eq_true, if_true]
    refine ⟨?_, ?_, ?_, ?_⟩
    · rcases budget with _ | b <;> trivial
    · rcases budget with _ | b <;> rfl
    · intro hb; subst hb; rfl
    · intro b hb
      subst hb
      exact ⟨rfl, min_le_right _ _, fun h1 h2 => le_min h1 h2⟩

/-- C7, witness: the specification scenario — on
`claude-3-7-sonnet-20250219` with `max_tokens_extended` 64000, a requested
budget of 100000 is stored clamped to 64000. -/
theorem C7_set_extended_thinking_witness :
    (set_extended_thinking extState true (some 100000)).1 = true ∧
    (set_extended_thinking extState true (some 100000)).2.extended_thinking_budget =
      some 64000 := by
  have h := (C7_set_extended_thinking extState true (some 100000)).2 rfl
  refine ⟨h.1, ?_⟩
  rw [(h.2.2.2 100000 rfl).1]
  rfl

/-! ## C3: the OpenAI body rewrite -/

/-- The conditional parameter-copy loop of the OpenAI builder (over an
arbitrary value `r` of the reasoning-capability check) does not touch keys
the parameter dictionary does not contain. -/
theorem openai_fold_lookup_none (r : Bool) (ps d : List (String × JVal))
    (k : String) (h : alookup ps k = none) :
    alookup (ps.foldl
      (fun acc kv =>
        if kv.fst ≠ "max_tokens" ∨ ¬ r then dset acc kv.fst kv.snd else acc) d) k
      = alookup d k := by
  induction ps generalizing d with
  | nil => simp
  | cons hd tl ih =>
    obtain ⟨k1, v1⟩ := hd
    simp only [alookup] at h
    by_cases h1 : k1 = k
    · simp [h1] at h
    · simp only [List.foldl_cons]
      rw [ih _ (by simpa [h1] using h)]
      split
      · exact alookup_dset_ne _ _ _ _ (fun hh => h1 hh.symm)
      · rfl

/-- When the model supports reasoning, the conditional copy loop skips the
`max_tokens` parameter entirely. -/
theorem openai_fold_skip_max_tokens (r : Bool) (ps d : List (String × JVal))
    (hr : r = true) :
    alookup (ps.foldl
      (fun acc kv =>
        if kv.fst ≠ "max_tokens" ∨ ¬ r then dset acc kv.fst kv.snd else acc) d)
      "max_tokens" = alookup d "max_tokens" := by
  induction ps generalizing d with
  | nil => simp
  | cons hd tl ih =>
    obtain ⟨k1, v1⟩ := hd
    simp only [List.foldl_cons]
    by_cases h1 : k1 = "max_tokens"
    · subst h1
      rw [if_neg (by simp [hr])]
      exact ih d
    · rw [if_pos (Or.inl h1)]
      rw [ih _, alookup_dset_ne _ _ _ _ (fun hh => h1 hh.symm)]

/-- When the model does not support reasoning, the conditional copy loop
copies every parameter, and on a dictionary with unique keys each
contained key ends up with its dictionary value. -/
theorem openai_fold_lookup_mem (r : Bool) (ps d : List (String × JVal))
    (k : String) (v : JVal) (hr : r = false)
    (hnd : (ps.map Prod.fst).Nodup) (h : alookup ps k = some v) :
    alookup (ps.foldl
      (fun acc kv =>
        if kv.fst ≠ "max_tokens" ∨ ¬ r then dset acc kv.fst kv.snd else acc) d) k
      = some v := by
  induction ps generalizing d with
  | nil => simp [alookup] at h
  | cons hd tl ih =>
    obtain ⟨k1, v1⟩ := hd
    simp only [List.map_cons, List.nodup_cons] at hnd
    simp only [alookup] at h
    simp only [List.foldl_cons]
    rw [if_pos (Or.inr (by simp [hr]))]
    by_cases h1 : k1 = k
    · rw [if_pos h1] at h
      injection h with hv
      subst hv
      subst h1
      rw [openai_fold_lookup_none r _ _ _ (alookup_none_of_keys tl k1 hnd.1),
        alookup_dset_self]
    · rw [if_neg h1] at h
      exact ih _ hnd.2 h

/-- The conditional copy loop never removes a key that is already present
in the body being built. -/
theorem openai_fold_isSome (r : Bool) (ps d : List (String × JVal))
    (k : String) (h : (alookup d k).isSome = true) :
    (alookup (ps.foldl
      (fun acc kv =>
        if kv.fst ≠ "max_tokens" ∨ ¬ r then dset acc kv.fst kv.snd else acc) d)
      k).isSome = true := by
  induction ps generalizing d with
  | nil => simpa using h
  | cons hd tl ih =>
    obtain ⟨k1, v1⟩ := hd
    simp only [List.foldl_cons]
    split
    · apply ih
      by_cases h1 : k1 = k
      · subst h1; rw [alookup_dset_self]; rfl
      · rw [alookup_dset_ne _ _ _ _ (fun hh => h1 hh.symm)]; exact h
    · exact ih _ h

/-- A session on OpenAI `gpt-4o` (no reasoning support) whose parameter
dictionary holds both `max_tokens` and a manually set
`max_completion_tokens`, built through the public mutators. -/
def c3State : LLMState :=
  set_parameter
    (set_parameter (set_provider (set_api_key (initLLM defaultConfig none) "sk-test") "openai").2
      "max_tokens" (.num 500))
    "max_completion_tokens" (.num 100)

/-- C3, counterexample.  On a non-reasoning model with `max_tokens` in the
parameters, the outgoing OpenAI body can carry **both** `max_tokens` and
`max_completion_tokens`: the copy loop transfers any user-set
`max_completion_tokens` parameter verbatim. -/
theorem C3_counterexample :
    capTruthy (get_model_capabilities c3State) "supports_reasoning" = false ∧
    alookup (openaiBody c3State "p") "max_tokens" = some (.num 500) ∧
    alookup (openaiBody c3State "p") "max_completion_tokens" = some (.num 100) := by
  exact ⟨rfl, rfl, rfl⟩

/-- C3, amended.  Provided the parameter dictionary (unique keys) contains
`max_tokens` but no `max_completion_tokens` entry of its own, the outgoing
OpenAI body contains exactly one of the two keys: with
`supports_reasoning` it carries `max_completion_tokens` with the
configured `max_tokens` value, no `max_tokens` key, and a
`reasoning_effort` field whenever that attribute is set; otherwise it
carries `max_tokens` as-is and no `max_completion_tokens` key. -/
theorem C3_openaiBody (s : LLMState) (prompt : String) (v : JVal)
    (hnd : (s.parameters.map Prod.fst).Nodup)
    (hmt : alookup s.parameters "max_tokens" = some v)
    (hmct : alookup s.parameters "max_completion_tokens" = none) :
    (capTruthy (get_model_capabilities s) "supports_reasoning" = true →
      alookup (openaiBody s prompt) "max_completion_tokens" = some v ∧
      alookup (openaiBody s prompt) "max_tokens" = none ∧
      (s.reasoning_effort.isSome = true →
        (alookup (openaiBody s prompt) "reasoning_effort").isSome = true)) ∧
    (capTruthy (get_model_capabilities s) "supports_reasoning" = false →
      alookup (openaiBody s prompt) "max_tokens" = some v ∧
      alookup (openaiBody s prompt) "max_completion_tokens" = none) := by
  constructor
  · intro hr
    simp only [openaiBody, hmt]
    rw [if_pos hr]
    refine ⟨?_, ?_, ?_⟩
    · rw [openai_fold_lookup_none _ _ _ _ hmct]
      rcases s.reasoning_effort with _ | e
      · simp only
        exact alookup_dset_self _ _ _
      · simp only
        rw [alookup_dset_ne _ _ _ _ (by decide)]
        exact alookup_dset_self _ _ _
    · rw [openai_fold_skip_max_tokens _ _ _ hr]
      rcases s.reasoning_effort with _ | e
      · simp only
        rw [alookup_dset_ne _ _ _ _ (by decide)]
        rfl
      · simp only
        rw [alookup_dset_ne _ _ _ _ (by decide),
          alookup_dset_ne _ _ _ _ (by decide)]
        rfl
    · intro hre
      apply openai_fold_isSome
      rcases hsre : s.reasoning_effort with _ | e
      · rw [hsre] at hre; simp at hre
      · simp only [hsre]
        rw [alookup_dset_self]
        rfl
  · intro hr
    simp only [openaiBody, hmt]
    rw [if_neg (by simp [hr])]
    constructor
    · exact openai_fold_lookup_mem _ _ _ _ _ hr hnd hmt
    · rw [openai_fold_lookup_none _ _ _ _ hmct,
        alookup_dset_ne _ _ _ _ (by decide)]
      rfl

/-- A session on the reasoning model OpenAI `o1`, built through the public
mutators; its parameters are `temperature` and the configured
`max_tokens` 16000. -/
def o1State : LLMState :=
  set_model (set_provider (set_api_key (initLLM defaultConfig none) "sk-test") "openai").2 "o1"

/-- C3, witness: on `o1` (`supports_reasoning`) with configured
`max_tokens` 16000, the outgoing body carries
`max_completion_tokens` 16000 and no `max_tokens` key. -/
theorem C3_openaiBody_witness :
    alookup (openaiBody o1State "p") "max_completion_tokens" = some (.num 16000) ∧
    alookup (openaiBody o1State "p") "max_tokens" = none := by
  have h := (C3_openaiBody o1State "p" (.num 16000) (by decide) rfl rfl).1 rfl
  exact ⟨h.1, h.2.1⟩

/-! ## C10: parameters overwrite the fixed Anthropic body fields -/

/-- C10.  In the Anthropic builder every parameter entry is copied into the
body after the fixed fields, so a parameter whose key is `model`,
`messages` or `thinking` (or any other key the builder derived) replaces
the derived value in the final request body: whenever the body is built
without raising, each key of the parameter dictionary (unique keys) maps
to its parameter value in the outgoing body. -/
theorem C10_param_precedence (s : LLMState) (prompt k : String) (v : JVal)
    (d : List (String × JVal))
    (hnd : (s.parameters.map Prod.fst).Nodup)
    (h : alookup s.parameters k = some v)
    (hbody : anthropicBody s prompt = .ok d) :
    alookup d k = some v := by
  simp only [anthropicBody] at hbody
  split at hbody
  · exact absurd hbody (by simp)
  · rename_i heq
    injection hbody with hd
    subst hd
    exact anthropic_fold_lookup_mem _ _ _ _ hnd h

/-- A ready Anthropic session whose parameters override the derived
`model` field. -/
def c10State : LLMState := set_parameter readyState "model" (.str "overridden")

/-- C10, witness: the user-set `model` parameter replaces the selected
model id in the outgoing body. -/
theorem C10_param_precedence_witness :
    ∃ d, anthropicBody c10State "p" = .ok d ∧
      alookup d "model" = some (.str "overridden") :=
  ⟨_, rfl, C10_param_precedence c10State "p" "model" (.str "overridden") _ (by decide) rfl rfl⟩

/-! ## C8: preconditions of `send_request` -/

/-- C8.  Provided the progress callback does not raise at the entry
milestone, the three preconditions are checked before any network
activity and each failure returns its distinct error string with zero
network calls issued: missing credential, then missing model (each of
these two also leaves the state untouched and the callback uninvoked),
then unsupported provider. -/
theorem C8_preconditions (s : LLMState) (prompt : String) (env : Env)
    (h10 : ∀ f, env.cb = some f → f 10 = none) :
    (optStrTruthy s.api_key = false →
      send_request s prompt env = ⟨.ok "Error: API key not provided", [], 0, s⟩) ∧
    (optStrTruthy s.api_key = true → optStrTruthy s.model_id = false →
      send_request s prompt env = ⟨.ok "Error: No model selected", [], 0, s⟩) ∧
    (optStrTruthy s.api_key = true → optStrTruthy s.model_id = true →
      s.api_provider ≠ "anthropic" → s.api_provider ≠ "openai" → s.api_provider ≠ "gemini" →
      (send_request s prompt env).result =
          .ok ("Error: Unsupported provider " ++ s.api_provider) ∧
      (send_request s prompt env).netcalls = 0) := by
  refine ⟨?_, ?_, ?_⟩
  · intro h
    unfold send_request
    rw [h]
    rfl
  · intro hk hm
    unfold send_request
    rw [hk, hm]
    rfl
  · intro hk hm ha ho hg
    unfold send_request
    rw [hk, hm]
    have hemit : (emit env [] 10).2 = none := by
      unfold emit
      rcases hcb : env.cb with _ | f
      · rfl
      · exact h10 f hcb
    rcases he : emit env [] 10 with ⟨tr, e⟩
    rw [he] at hemit
    simp only at hemit
    subst hemit
    simp only [if_neg ha, if_neg ho, if_neg hg]
    exact ⟨rfl, rfl⟩

/-- A fresh session with no API key. -/
def noKeyState : LLMState := initLLM defaultConfig none

/-- A configuration whose only provider is not one of the three supported
dispatch targets. -/
def azureConfig : Config :=
  { api := [("azure",
      { url := some "https://example.invalid"
        version := none
        models := [⟨some "m1", "M1", []⟩]
        default_model := some "m1" })]
    default_api := some "azure" }

/-- A keyed session whose active provider is unsupported. -/
def azureState : LLMState := set_api_key (initLLM azureConfig none) "sk-test"

/-- C8, witness: the three precondition failures on concrete sessions —
no key, key but no model, and an unsupported provider (zero network
calls in each case). -/
theorem C8_preconditions_witness :
    send_request noKeyState "p" envBenign =
        ⟨.ok "Error: API key not provided", [], 0, noKeyState⟩ ∧
    (send_request azureState "p" envBenign).result =
        .ok "Error: Unsupported provider azure" ∧
    (send_request azureState "p" envBenign).netcalls = 0 := by
  have hbenign : ∀ f, envBenign.cb = some f → f 10 = none := by
    intro f hf
    simp only [envBenign] at hf
    injection hf with h3
    rw [← h3]
  refine ⟨(C8_preconditions noKeyState "p" envBenign hbenign).1 rfl, ?_⟩
  have h := (C8_preconditions azureState "p" envBenign hbenign).2.2 rfl rfl
    (by decide) (by decide) (by decide)
  exact h

/-! ## C2: Anthropic response extraction -/

/-- On well-formed content blocks the extraction loop of the source equals
the specification's concatenation: the `text` of exactly the text-typed
blocks, in array order. -/
theorem extractText_wf (blocks : List JVal) (hwf : ∀ b ∈ blocks, wfBlock b = true) :
    extractText blocks = .ok (specTextConcat blocks) := by
  induction blocks with
  | nil => rfl
  | cons b rest ih =>
    have hb := hwf b (List.mem_cons_self b rest)
    have hrest := ih (fun x hx => hwf x (List.mem_cons_of_mem b hx))
    rcases b with _ | b2 | n | q | t | xs | fs
    · simp [wfBlock] at hb
    · simp [wfBlock] at hb
    · simp [wfBlock] at hb
    · simp [wfBlock] at hb
    · simp [wfBlock] at hb
    · simp [wfBlock] at hb
    · rcases htype : alookup fs "type" with _ | tv
      · simp [extractText, specTextConcat, pickText, htype, hrest]
      · rcases tv with _ | b3 | n2 | q2 | tstr | xs2 | fs2
        · simp [extractText, specTextConcat, pickText, htype, hrest]
        · simp [extractText, specTextConcat, pickText, htype, hrest]
        · simp [extractText, specTextConcat, pickText, htype, hrest]
        · simp [extractText, specTextConcat, pickText, htype, hrest]
        · by_cases hts : tstr = "text"
          · subst hts
            simp only [wfBlock, htype] at hb
            rcases htext : alookup fs "text" with _ | txt
            · rw [htext] at hb
              simp [extractText, specTextConcat, pickText, htype, htext, hrest,
                String.empty_append]
            · rcases txt with _ | b4 | n3 | q3 | tval | xs3 | fs3
              · rw [htext] at hb; simp at hb
              · rw [htext] at hb; simp at hb
              · rw [htext] at hb; simp at hb
              · rw [htext] at hb; simp at hb
              · simp [extractText, specTextConcat, pickText, htype, htext, hrest,
                  Except.map]
              · rw [htext] at hb; simp at hb
              · rw [htext] at hb; simp at hb
          · simp [extractText, specTextConcat, pickText, htype, hrest, hts]
        · simp [extractText, specTextConcat, pickText, htype, hrest]
        · simp [extractText, specTextConcat, pickText, htype, hrest]

/-- On a session with coherent extended-thinking attributes, building the
Anthropic body never raises. -/
theorem thinkOk_body (s : LLMState) (prompt : String) (hthink : thinkOk s) :
    ∃ d, anthropicBody s prompt = .ok d := by
  unfold anthropicBody
  dsimp only
  by_cases hc : s.use_extended_thinking = some true ∧
      capTruthy (get_model_capabilities s) "supports_extended_thinking" = true
  · rcases hbud : s.extended_thinking_budget with _ | b
    · exact absurd (hthink hc) (by rw [hbud]; simp)
    · rw [if_pos hc]
      exact ⟨_, rfl⟩
  · rw [if_neg hc]
    exact ⟨_, rfl⟩

/-- The Anthropic builder on a 200 response with a non-empty, well-formed
content array: the full outcome — the specification concatenation as the
result, the milestone trace, one network call, and usage recorded. -/
theorem anthropic_success (s : LLMState) (prompt : String) (env : Env) (tr : List Int)
    (resp : HttpResp) (fields : List (String × JVal)) (blocks : List JVal)
    (hthink : thinkOk s) (hcb : cbOk env)
    (hpost : ∀ r, env.post r = .ok resp)
    (hstat : resp.status = 200)
    (hbody : resp.body = .obj fields)
    (hcont : alookup fields "content" = some (.arr blocks))
    (hne : blocks ≠ [])
    (hwf : ∀ b ∈ blocks, wfBlock b = true) :
    anthropic_request s prompt env tr =
      ⟨.ok (specTextConcat blocks), tr ++ (if env.cb.isSome then [30, 90, 100] else []),
        1, recordUsage s resp.body⟩ := by
  obtain ⟨data, hdata⟩ := thinkOk_body s prompt hthink
  have hlen : (0 < blocks.length) = True := by
    simp [List.length_pos, hne]
  rcases henv : env.cb with _ | f
  · simp only [anthropic_request, hdata, emit, henv, hpost, hbody, parseAnthropic200,
      hcont, pyLen, hstat, gt_iff_lt, hlen, if_true, if_pos, extractText_wf blocks hwf,
      Except.map, List.append_nil, Option.isSome_none, Bool.false_eq_true, if_false]
  · have hf : ∀ v, f v = none := fun v => hcb f v henv
    simp only [anthropic_request, hdata, emit, henv, hf, hpost, hbody, parseAnthropic200,
      hcont, pyLen, hstat, gt_iff_lt, hlen, if_true, extractText_wf blocks hwf,
      Except.map, Option.isSome_some, List.append_assoc, List.singleton_append,
      List.cons_append, List.nil_append]

/-- The Anthropic builder on a 200 response whose content array is empty:
the empty-response error string, no usage recorded, no final milestone. -/
theorem anthropic_empty_content (s : LLMState) (prompt : String) (env : Env) (tr : List Int)
    (resp : HttpResp) (fields : List (String × JVal))
    (hthink : thinkOk s) (hcb : cbOk env)
    (hpost : ∀ r, env.post r = .ok resp)
    (hstat : resp.status = 200)
    (hbody : resp.body = .obj fields)
    (hcont : alookup fields "content" = some (.arr [])) :
    anthropic_request s prompt env tr =
      ⟨.ok "Error: Empty response from API",
        tr ++ (if env.cb.isSome then [30, 90] else []), 1, s⟩ := by
  obtain ⟨data, hdata⟩ := thinkOk_body s prompt hthink
  rcases henv : env.cb with _ | f
  · simp [anthropic_request, hdata, emit, henv, hpost, hbody, parseAnthropic200,
      hcont, pyLen, hstat]
  · have hf : ∀ v, f v = none := fun v => hcb f v henv
    simp [anthropic_request, hdata, emit, henv, hf, hpost, hbody, parseAnthropic200,
      hcont, pyLen, hstat]

/-- A 200 response whose content array holds one non-text (image) block
and no text block at all. -/
def imageOnlyResp : HttpResp :=
  ⟨200, .obj [("content", .arr [.obj [("type", .str "image")]])], "raw"⟩

/-- An environment (no callback) whose transport returns the image-only
200 response. -/
def envImageOnly : Env :=
  { cb := none
    post := fun _ => .ok imageOnlyResp
    gemInit := .succeeds
    generate := fun _ => .error "offline" }

/-- C2, counterexample.  On a 200 response whose content array is
non-empty but contains no text block, the call returns the **empty
string**, not `Error: Empty response from API`: the source checks
`len(content) > 0`, not whether the concatenation is empty. -/
theorem C2_counterexample :
    (send_request readyState "p" envImageOnly).result = .ok "" ∧
    ("" : String) ≠ "Error: Empty response from API" := by
  exact ⟨rfl, by decide⟩

/-- C2, amended.  On an Anthropic HTTP-200 response whose `content` is a
well-formed array of blocks, the call returns exactly the concatenation,
in array order, of the `text` field of the text-typed blocks (non-text
blocks skipped); the `Error: Empty response from API` string is returned
exactly when the content array itself is empty — a non-empty array with
no text blocks yields the empty-string concatenation, not the error. -/
theorem C2_anthropic_extraction (s : LLMState) (prompt : String) (env : Env)
    (resp : HttpResp) (fields : List (String × JVal)) (blocks : List JVal)
    (hk : optStrTruthy s.api_key = true) (hm : optStrTruthy s.model_id = true)
    (hprov : s.api_provider = "anthropic")
    (hthink : thinkOk s) (hcb : cbOk env)
    (hpost : ∀ r, env.post r = .ok resp)
    (hstat : resp.status = 200)
    (hbody : resp.body = .obj fields)
    (hcont : alookup fields "content" = some (.arr blocks))
    (hwf : ∀ b ∈ blocks, wfBlock b = true) :
    (send_request s prompt env).result =
      .ok (if blocks.isEmpty then "Error: Empty response from API"
           else specTextConcat blocks) := by
  unfold send_request
  rw [hk, hm]
  simp only [Bool.true_eq_false, not_true_eq_false, if_false]
  rcases henv : env.cb with _ | f
  · simp only [emit, henv, hprov, if_pos rfl, if_true]
    rcases hbl : blocks with _ | ⟨b, rest⟩
    · rw [anthropic_empty_content s prompt env [] resp fields hthink hcb hpost hstat
        hbody (by rw [hcont, hbl])]
      rfl
    · rw [anthropic_success s prompt env [] resp fields blocks hthink hcb hpost hstat
        hbody hcont (by rw [hbl]; simp) hwf, hbl]
      simp
  · have hf : ∀ v, f v = none := fun v => hcb f v henv
    simp only [emit, henv, hf, hprov, if_pos rfl, if_true, List.nil_append]
    rcases hbl : blocks with _ | ⟨b, rest⟩
    · rw [anthropic_empty_content s prompt env [10] resp fields hthink hcb hpost hstat
        hbody (by rw [hcont, hbl])]
      rfl
    · rw [anthropic_success s prompt env [10] resp fields blocks hthink hcb hpost hstat
        hbody hcont (by rw [hbl]; simp) hwf, hbl]
      simp

/-- The specification's example 200 response: a text block `A`, an image
block, a text block `B`, plus a usage field. -/
def abResp : HttpResp :=
  ⟨200,
   .obj [("content", .arr
      [.obj [("type", .str "text"), ("text", .str "A")],
       .obj [("type", .str "image")],
       .obj [("type", .str "text"), ("text", .str "B")]]),
     ("usage", .obj [("input_tokens", .num 3)])],
   "raw"⟩

/-- An environment with a well-behaved callback whose transport returns
the `A`/image/`B` response. -/
def envAB : Env :=
  { cb := some (fun _ => none)
    post := fun _ => .ok abResp
    gemInit := .succeeds
    generate := fun _ => .error "offline" }

/-- C2, witness: the extracted text of the `A`/image/`B` response is
`"AB"` — non-text blocks skipped, text blocks concatenated in order. -/
theorem C2_anthropic_extraction_witness :
    (send_request readyState "p" envAB).result = .ok "AB" := by
  have h := C2_anthropic_extraction readyState "p" envAB abResp
    [("content", .arr
      [.obj [("type", .str "text"), ("text", .str "A")],
       .obj [("type", .str "image")],
       .obj [("type", .str "text"), ("text", .str "B")]]),
     ("usage", .obj [("input_tokens", .num 3)])]
    [.obj [("type", .str "text"), ("text", .str "A")],
     .obj [("type", .str "image")],
     .obj [("type", .str "text"), ("text", .str "B")]]
    rfl rfl rfl (by decide)
    (by intro f v hf
        simp only [envAB] at hf
        injection hf with h3
        rw [← h3])
    (fun r => rfl) rfl rfl rfl (by decide)
  rw [h]
  rfl

/-! ## C5: progress sequences -/

theorem anthropic_progress_none (s : LLMState) (prompt : String) (env : Env)
    (tr : List Int) (hcb : env.cb = none) :
    (anthropic_request s prompt env tr).progress = tr := by
  unfold anthropic_request
  simp only [emit, hcb]
  repeat' split
  all_goals rfl

theorem anthropic_progress_some (s : LLMState) (prompt : String) (env : Env)
    (tr : List Int) (f : Int → Option String) (hcb : env.cb = some f) :
    (anthropic_request s prompt env tr).progress ∈
      [tr, tr ++ [30], tr ++ [30, 90], tr ++ [30, 90, 100]] := by
  unfold anthropic_request
  simp only [emit, hcb]
  repeat' split
  all_goals try injections
  all_goals subst_vars
  all_goals simp

theorem openai_progress_none (s : LLMState) (prompt : String) (env : Env)
    (tr : List Int) (hcb : env.cb = none) :
    (openai_request s prompt env tr).progress = tr := by
  unfold openai_request
  simp only [emit, hcb]
  repeat' split
  all_goals rfl

theorem openai_progress_some (s : LLMState) (prompt : String) (env : Env)
    (tr : List Int) (f : Int → Option String) (hcb : env.cb = some f) :
    (openai_request s prompt env tr).progress ∈
      [tr, tr ++ [30], tr ++ [30, 90], tr ++ [30, 90, 100]] := by
  unfold openai_request
  simp only [emit, hcb]
  repeat' split
  all_goals try injections
  all_goals subst_vars
  all_goals simp

theorem gemini_progress_none (s : LLMState) (prompt : String) (env : Env)
    (tr : List Int) (hcb : env.cb = none) :
    (gemini_request s prompt env tr).progress = tr := by
  unfold gemini_request
  simp only [emit, hcb]
  repeat' split
  all_goals rfl

theorem gemini_progress_some (s : LLMState) (prompt : String) (env : Env)
    (tr : List Int) (f : Int → Option String) (hcb : env.cb = some f) :
    (gemini_request s prompt env tr).progress ∈
      [tr, tr ++ [20], tr ++ [20, 40], tr ++ [20, 40, 90], tr ++ [20, 40, 90, 100]] := by
  unfold gemini_request
  simp only [emit, hcb]
  repeat' split
  all_goals try injections
  all_goals subst_vars
  all_goals simp

/-- The outermost exception-to-string conversion of `send_request` leaves
the progress trace, the network-call count and the state of an outcome
unchanged. -/
theorem catch_outcome (o : Outcome) :
    (match o.result with
      | Except.error m => { o with result := Except.ok ("Error: " ++ m) }
      | Except.ok _ => o).progress = o.progress ∧
    (match o.result with
      | Except.error m => { o with result := Except.ok ("Error: " ++ m) }
      | Except.ok _ => o).netcalls = o.netcalls ∧
    (match o.result with
      | Except.error m => { o with result := Except.ok ("Error: " ++ m) }
      | Except.ok _ => o).state = o.state := by
  rcases o with ⟨res, pr, nc, st⟩
  rcases res <;> exact ⟨rfl, rfl, rfl⟩

/-- Every trace `send_request` can produce is one of the nine milestone
prefixes. -/
theorem send_progress_shape (s : LLMState) (prompt : String) (env : Env) :
    (send_request s prompt env).progress ∈
      [[], [10], [10, 30], [10, 30, 90], [10, 30, 90, 100],
       [10, 20], [10, 20, 40], [10, 20, 40, 90], [10, 20, 40, 90, 100]] := by
  unfold send_request
  by_cases hk : optStrTruthy s.api_key = true
  · by_cases hm : optStrTruthy s.model_id = true
    · simp only [hk, hm, not_true_eq_false, if_false]
      rcases henv : env.cb with _ | f
      · simp only [emit, henv]
        rw [(catch_outcome _).1]
        by_cases ha : s.api_provider = "anthropic"
        · rw [if_pos ha, anthropic_progress_none s prompt env [] henv]; simp
        · rw [if_neg ha]
          by_cases ho : s.api_provider = "openai"
          · rw [if_pos ho, openai_progress_none s prompt env [] henv]; simp
          · rw [if_neg ho]
            by_cases hg : s.api_provider = "gemini"
            · rw [if_pos hg, gemini_progress_none s prompt env [] henv]; simp
            · rw [if_neg hg]; simp
      · simp only [emit, henv, List.nil_append]
        rcases h10 : f 10 with _ | m
        · simp only
          rw [(catch_outcome _).1]
          by_cases ha : s.api_provider = "anthropic"
          · rw [if_pos ha]
            rcases (by simpa using anthropic_progress_some s prompt env [10] f henv)
              with h | h | h | h <;> simp [h]
          · rw [if_neg ha]
            by_cases ho : s.api_provider = "openai"
            · rw [if_pos ho]
              rcases (by simpa using openai_progress_some s prompt env [10] f henv)
                with h | h | h | h <;> simp [h]
            · rw [if_neg ho]
              by_cases hg : s.api_provider = "gemini"
              · rw [if_pos hg]
                rcases (by simpa using gemini_progress_some s prompt env [10] f henv)
                  with h | h | h | h | h <;> simp [h]
              · rw [if_neg hg]; simp
        · simp
    · simp [hm, hk]
  · simp [hk]

/-- C5 support: every progress sequence of `send_request` is monotonically
non-decreasing. -/
theorem send_progress_chain (s : LLMState) (prompt : String) (env : Env) :
    List.Chain' (· ≤ ·) (send_request s prompt env).progress := by
  have h := send_progress_shape s prompt env
  simp only [List.mem_cons, List.not_mem_nil, or_false] at h
  rcases h with h | h | h | h | h | h | h | h | h
  all_goals rw [h]
  all_goals norm_num [List.chain'_cons]

/-- The OpenAI builder on a 200 response whose first choice carries a
string message content: full outcome with usage recorded and the milestone
trace. -/
theorem openai_success (s : LLMState) (prompt : String) (env : Env) (tr : List Int)
    (resp : HttpResp) (fields cf mf : List (String × JVal)) (t : String)
    (rest : List JVal)
    (hcb : cbOk env)
    (hpost : ∀ r, env.post r = .ok resp)
    (hstat : resp.status = 200)
    (hbody : resp.body = .obj fields)
    (hchoices : alookup fields "choices" = some (.arr (JVal.obj cf :: rest)))
    (hmsg : alookup cf "message" = some (.obj mf))
    (hcontent : alookup mf "content" = some (.str t)) :
    openai_request s prompt env tr =
      ⟨.ok t, tr ++ (if env.cb.isSome then [30, 90, 100] else []),
        1, recordUsage s resp.body⟩ := by
  rcases henv : env.cb with _ | f
  · simp only [openai_request, emit, henv, hpost, hbody, parseOpenai200, hchoices,
      pyLen, hstat, hmsg, hcontent, List.length_cons, gt_iff_lt, Nat.succ_pos,
      if_true, List.append_nil, Option.isSome_none, Bool.false_eq_true, if_false]
  · have hf : ∀ v, f v = none := fun v => hcb f v henv
    simp only [openai_request, emit, henv, hf, hpost, hbody, parseOpenai200, hchoices,
      pyLen, hstat, hmsg, hcontent, List.length_cons, gt_iff_lt, Nat.succ_pos,
      if_true, Option.isSome_some, List.append_assoc, List.singleton_append,
      List.cons_append, List.nil_append]

/-- The Gemini builder on a successful SDK round trip delivers the four
milestones 20, 40, 90, 100. -/
theorem gemini_success_progress (s : LLMState) (prompt : String) (env : Env)
    (tr : List Int) (f : Int → Option String) (gresp : GemResp) (t : String)
    (hcb : env.cb = some f) (hf : ∀ v, f v = none)
    (hinit : env.gemInit = .succeeds)
    (hgen : ∀ r, env.generate r = .ok gresp)
    (htext : gresp.textResult = .ok t) :
    (gemini_request s prompt env tr).progress = tr ++ [20, 40, 90, 100] := by
  by_cases hic : s.gemini_client = false ∧ optStrTruthy s.api_key = true
  · simp only [gemini_request, initialize_gemini_client, hic, if_true, hinit, emit,
      hcb, hf, hgen, htext, List.append_assoc, List.singleton_append, List.cons_append,
      List.nil_append]
    simp
  · simp only [gemini_request, initialize_gemini_client, hic, if_false, hinit, emit,
      hcb, hf, hgen, htext, List.append_assoc, List.singleton_append, List.cons_append,
      List.nil_append]

/-- C5, counterexample.  The unsupported-provider precondition failure does
invoke the progress callback: the entry milestone 10 is emitted before the
provider check, so the callback receives `[10]` rather than never being
invoked. -/
theorem C5_counterexample :
    (send_request azureState "p" envBenign).result =
        .ok "Error: Unsupported provider azure" ∧
    (send_request azureState "p" envBenign).progress = [10] := by
  exact ⟨rfl, rfl⟩

/-- C5, amended.  Progress contract of `send_request`: every delivered
sequence is monotonically non-decreasing; the missing-credential and
missing-model failures deliver nothing; the unsupported-provider failure
delivers exactly the entry milestone `[10]` (the callback **is** invoked
there); and a successful call on each of the three providers delivers the
full milestone sequence ending in 100. -/
theorem C5_progress_contract (s : LLMState) (prompt : String) (env : Env) :
    List.Chain' (· ≤ ·) (send_request s prompt env).progress ∧
    (optStrTruthy s.api_key = false → (send_request s prompt env).progress = []) ∧
    (optStrTruthy s.api_key = true → optStrTruthy s.model_id = false →
      (send_request s prompt env).progress = []) ∧
    (∀ f, env.cb = some f → f 10 = none →
      optStrTruthy s.api_key = true → optStrTruthy s.model_id = true →
      s.api_provider ≠ "anthropic" → s.api_provider ≠ "openai" →
      s.api_provider ≠ "gemini" →
      (send_request s prompt env).progress = [10]) ∧
    (∀ f resp fields blocks, env.cb = some f → cbOk env →
      optStrTruthy s.api_key = true → optStrTruthy s.model_id = true →
      s.api_provider = "anthropic" → thinkOk s →
      (∀ r, env.post r = .ok resp) → resp.status = 200 → resp.body = .obj fields →
      alookup fields "content" = some (.arr blocks) → blocks ≠ [] →
      (∀ b ∈ blocks, wfBlock b = true) →
      (send_request s prompt env).progress = [10, 30, 90, 100]) ∧
    (∀ f resp fields cf mf t rest, env.cb = some f → cbOk env →
      optStrTruthy s.api_key = true → optStrTruthy s.model_id = true →
      s.api_provider = "openai" →
      (∀ r, env.post r = .ok resp) → resp.status = 200 → resp.body = .obj fields →
      alookup fields "choices" = some (.arr (JVal.obj cf :: rest)) →
      alookup cf "message" = some (.obj mf) →
      alookup mf "content" = some (.str t) →
      (send_request s prompt env).progress = [10, 30, 90, 100]) ∧
    (∀ f gresp t, env.cb = some f → cbOk env →
      optStrTruthy s.api_key = true → optStrTruthy s.model_id = true →
      s.api_provider = "gemini" → env.gemInit = .succeeds →
      (∀ r, env.generate r = .ok gresp) → gresp.textResult = .ok t →
      (send_request s prompt env).progress = [10, 20, 40, 90, 100]) := by
  refine ⟨send_progress_chain s prompt env, ?_, ?_, ?_, ?_, ?_, ?_⟩
  · intro h
    unfold send_request
    rw [h]
    rfl
  · intro hk hm
    unfold send_request
    rw [hk, hm]
    rfl
  · intro f hcb h10 hk hm ha ho hg
    unfold send_request
    rw [hk, hm]
    simp only [not_true_eq_false, if_false, emit, hcb, h10, List.nil_append,
      if_neg ha, if_neg ho, if_neg hg]
  · intro f resp fields blocks hcb hcbok hk hm ha hthink hpost hstat hbody hcont hne hwf
    unfold send_request
    rw [hk, hm]
    have hf : ∀ v, f v = none := fun v => hcbok f v hcb
    simp only [not_true_eq_false, if_false, emit, hcb, hf, List.nil_append, ha,
      if_pos rfl]
    rw [(catch_outcome _).1,
      anthropic_success s prompt env [10] resp fields blocks hthink hcbok hpost hstat
        hbody hcont hne hwf]
    simp [hcb]
  · intro f resp fields cf mf t rest hcb hcbok hk hm ho hpost hstat hbody hch hmsg hcontent
    unfold send_request
    rw [hk, hm]
    have hf : ∀ v, f v = none := fun v => hcbok f v hcb
    by_cases ha : s.api_provider = "anthropic"
    · rw [ha] at ho; simp at ho
    · simp only [not_true_eq_false, if_false, emit, hcb, hf, List.nil_append,
        if_neg ha, ho, if_pos rfl]
      rw [(catch_outcome _).1,
        openai_success s prompt env [10] resp fields cf mf t rest hcbok hpost hstat
          hbody hch hmsg hcontent]
      simp [hcb]
  · intro f gresp t hcb hcbok hk hm hg hinit hgen htext
    unfold send_request
    rw [hk, hm]
    have hf : ∀ v, f v = none := fun v => hcbok f v hcb
    by_cases ha : s.api_provider = "anthropic"
    · rw [ha] at hg; simp at hg
    · by_cases ho : s.api_provider = "openai"
      · rw [ho] at hg; simp at hg
      · simp only [not_true_eq_false, if_false, emit, hcb, hf, List.nil_append,
          hg, if_pos rfl]
        rw [(catch_outcome _).1]
        rw [if_neg (by decide : ¬("gemini" = "anthropic")),
          if_neg (by decide : ¬("gemini" = "openai")), if_pos trivial]
        rw [gemini_success_progress s prompt env [10] f gresp t hcb hf hinit hgen htext]
        rfl

/-- C5, witness: the contract applied to concrete runs — the
unsupported-provider session delivers exactly `[10]`, and a successful
Anthropic round trip delivers `[10, 30, 90, 100]`, ending in 100. -/
theorem C5_progress_contract_witness :
    (send_request azureState "p" envBenign).progress = [10] ∧
    (send_request readyState "p" envAB).progress = [10, 30, 90, 100] := by
  constructor
  · exact (C5_progress_contract azureState "p" envBenign).2.2.2.1 (fun _ => none)
      rfl rfl rfl rfl (by decide) (by decide) (by decide)
  · exact (C5_progress_contract readyState "p" envAB).2.2.2.2.1 (fun _ => none)
      abResp
      [("content", .arr
        [.obj [("type", .str "text"), ("text", .str "A")],
         .obj [("type", .str "image")],
         .obj [("type", .str "text"), ("text", .str "B")]]),
       ("usage", .obj [("input_tokens", .num 3)])]
      [.obj [("type", .str "text"), ("text", .str "A")],
       .obj [("type", .str "image")],
       .obj [("type", .str "text"), ("text", .str "B")]]
      rfl
      (by intro f v hf
          simp only [envAB] at hf
          injection hf with h3
          rw [← h3])
      rfl rfl rfl (by decide) (fun r => rfl) rfl rfl rfl
      (List.cons_ne_nil _ _) (by decide)

/-! ## C9: `last_usage` -/

/-- Lazy Gemini client initialization never touches `last_usage`. -/
theorem init_gemini_last_usage (s : LLMState) (env : Env) :
    ((initialize_gemini_client s env).2).last_usage = s.last_usage := by
  unfold initialize_gemini_client
  repeat' split
  all_goals rfl

/-- The Anthropic builder changes `last_usage` only by recording the
`usage` field of a 200 response obtained from the transport. -/
theorem anthropic_usage (s : LLMState) (prompt : String) (env : Env) (tr : List Int) :
    (anthropic_request s prompt env tr).state.last_usage = s.last_usage ∨
    ∃ req resp u, env.post req = .ok resp ∧ resp.status = 200 ∧
      bodyUsage resp.body = some u ∧
      (anthropic_request s prompt env tr).state.last_usage = u := by
  unfold anthropic_request
  rcases hb : anthropicBody s prompt with m | data
  · exact Or.inl (by trivial)
  · rcases h30 : emit env tr 30 with ⟨tr1, _ | m30⟩
    · simp only [h30]
      rcases hp : env.post ⟨s.api_config.url.getD "https://api.anthropic.com/v1/messages",
          anthropicHeaders s, data⟩ with m | resp
      · simp only [hp]
        exact Or.inl (by trivial)
      · simp only [hp]
        rcases h90 : emit env tr1 90 with ⟨tr2, _ | m90⟩
        · simp only [h90]
          by_cases hst : resp.status = 200
          · rw [if_pos hst]
            rcases hpar : parseAnthropic200 resp.body with m | _ | text
            · simp only [hpar]
              exact Or.inl (by trivial)
            · simp only [hpar]
              exact Or.inl (by trivial)
            · simp only [hpar]
              rcases h100 : emit env tr2 100 with ⟨tr3, _ | m100⟩
              · simp only [h100]
                rcases hu : bodyUsage resp.body with _ | u
                · exact Or.inl (by simp [recordUsage, hu])
                · exact Or.inr ⟨_, resp, u, hp, hst, hu, by simp [recordUsage, hu]⟩
              · simp only [h100]
                rcases hu : bodyUsage resp.body with _ | u
                · exact Or.inl (by simp [recordUsage, hu])
                · exact Or.inr ⟨_, resp, u, hp, hst, hu, by simp [recordUsage, hu]⟩
          · rw [if_neg hst]
            exact Or.inl (by trivial)
        · simp only [h90]
          exact Or.inl (by trivial)
    · simp only [h30]
      exact Or.inl (by trivial)

/-- The OpenAI builder changes `last_usage` only by recording the `usage`
field of a 200 response obtained from the transport. -/
theorem openai_usage (s : LLMState) (prompt : String) (env : Env) (tr : List Int) :
    (openai_request s prompt env tr).state.last_usage = s.last_usage ∨
    ∃ req resp u, env.post req = .ok resp ∧ resp.status = 200 ∧
      bodyUsage resp.body = some u ∧
      (openai_request s prompt env tr).state.last_usage = u := by
  unfold openai_request
  rcases h30 : emit env tr 30 with ⟨tr1, _ | m30⟩
  · simp only [h30]
    rcases hp : env.post ⟨s.api_config.url.getD "https://api.openai.com/v1/chat/completions",
        [("Authorization", "Bearer " ++ s.api_key.getD ""), ("Content-Type", "application/json")],
        openaiBody s prompt⟩ with m | resp
    · simp only [hp]
      exact Or.inl (by trivial)
    · simp only [hp]
      rcases h90 : emit env tr1 90 with ⟨tr2, _ | m90⟩
      · simp only [h90]
        by_cases hst : resp.status = 200
        · rw [if_pos hst]
          rcases hpar : parseOpenai200 resp.body with m | _ | text
          · simp only [hpar]
            exact Or.inl (by trivial)
          · simp only [hpar]
            exact Or.inl (by trivial)
          · simp only [hpar]
            rcases h100 : emit env tr2 100 with ⟨tr3, _ | m100⟩
            · simp only [h100]
              rcases hu : bodyUsage resp.body with _ | u
              · exact Or.inl (by simp [recordUsage, hu])
              · exact Or.inr ⟨_, resp, u, hp, hst, hu, by simp [recordUsage, hu]⟩
            · simp only [h100]
              rcases hu : bodyUsage resp.body with _ | u
              · exact Or.inl (by simp [recordUsage, hu])
              · exact Or.inr ⟨_, resp, u, hp, hst, hu, by simp [recordUsage, hu]⟩
        · rw [if_neg hst]
          exact Or.inl (by trivial)
      · simp only [h90]
        exact Or.inl (by trivial)
  · simp only [h30]
    exact Or.inl (by trivial)

/-- The Gemini builder changes `last_usage` only by recording the usage
metadata of a successful SDK response. -/
theorem gemini_usage (s : LLMState) (prompt : String) (env : Env) (tr : List Int) :
    (gemini_request s prompt env tr).state.last_usage = s.last_usage ∨
    ∃ req gresp p c t, env.generate req = .ok gresp ∧ gresp.usage = some (p, c, t) ∧
      (gemini_request s prompt env tr).state.last_usage =
        .obj [("prompt_tokens", .num p), ("completion_tokens", .num c),
          ("total_tokens", .num t)] := by
  unfold gemini_request
  rcases hic : initialize_gemini_client s env with ⟨err, s0⟩
  have hs0 : s0.last_usage = s.last_usage := by
    have h2 := init_gemini_last_usage s env
    rw [hic] at h2
    exact h2
  rcases err with _ | e
  · simp only [hic]
    rcases h20 : emit env tr 20 with ⟨tr1, _ | m20⟩
    · simp only [h20]
      rcases h40 : emit env tr1 40 with ⟨tr2, _ | m40⟩
      · simp only [h40]
        rcases hgen : env.generate ⟨s0.model_id, geminiGenConfig s0, prompt,
            capTruthy (get_model_capabilities s0) "supports_thinking" ∧
              s0.use_thinking.getD false⟩ with m | gresp
        · simp only [hgen]
          exact Or.inl hs0
        · simp only [hgen]
          rcases h90 : emit env tr2 90 with ⟨tr3, _ | m90⟩
          · simp only [h90]
            rcases hu : gresp.usage with _ | ⟨p, c, t⟩
            · simp only [hu]
              rcases h100 : emit env tr3 100 with ⟨tr4, _ | m100⟩
              · simp only [h100]
                rcases ht : gresp.textResult with m | t2
                · simp only [ht]
                  exact Or.inl hs0
                · simp only [ht]
                  exact Or.inl hs0
              · simp only [h100]
                exact Or.inl hs0
            · simp only [hu]
              rcases h100 : emit env tr3 100 with ⟨tr4, _ | m100⟩
              · simp only [h100]
                rcases ht : gresp.textResult with m | t2
                · simp only [ht]
                  exact Or.inr ⟨_, gresp, p, c, t, hgen, hu, rfl⟩
                · simp only [ht]
                  exact Or.inr ⟨_, gresp, p, c, t, hgen, hu, rfl⟩
              · simp only [h100]
                exact Or.inr ⟨_, gresp, p, c, t, hgen, hu, rfl⟩
          · simp only [h90]
            exact Or.inl hs0
      · simp only [h40]
        exact Or.inl hs0
    · simp only [h20]
      exact Or.inl hs0
  · simp only [hic]
    exact Or.inl hs0

/-- A 200 response with one text block and a usage field. -/
def usageResp : HttpResp :=
  ⟨200,
   .obj [("content", .arr [.obj [("type", .str "text"), ("text", .str "hi")]]),
     ("usage", .obj [("input_tokens", .num 3)])],
   "raw"⟩

/-- An environment whose callback raises exactly at the final milestone
100, after the response has been parsed and usage recorded. -/
def envRaise100 : Env :=
  { cb := some (fun v => if v = 100 then some "boom" else none)
    post := fun _ => .ok usageResp
    gemInit := .succeeds
    generate := fun _ => .error "offline" }

/-- C9, counterexample.  A call that returns an error string can still
overwrite `last_usage`: on a good 200 response the usage counters are
recorded (line 250) before the final `on_progress(100)` (line 253), so a
callback exception at milestone 100 yields `Error: boom` from `send` with
`last_usage` already overwritten. -/
theorem C9_counterexample :
    readyState.last_usage = .obj [] ∧
    (send_request readyState "p" envRaise100).result = .ok "Error: boom" ∧
    (send_request readyState "p" envRaise100).state.last_usage =
      .obj [("input_tokens", .num 3)] := by
  exact ⟨rfl, rfl, rfl⟩

theorem set_provider_last_usage (s : LLMState) (p : String) :
    (set_provider s p).2.last_usage = s.last_usage := by
  unfold set_provider
  rcases h : alookup s.config.api p with _ | pc
  · rfl
  · dsimp only
    rw [configure_last_usage]
    split
    · rfl
    · rfl

theorem set_model_last_usage (s : LLMState) (m : String) :
    (set_model s m).last_usage = s.last_usage := by
  rw [set_model, configure_last_usage]

theorem set_extended_thinking_last_usage (s : LLMState) (enabled : Bool)
    (budget : Option Int) :
    (set_extended_thinking s enabled budget).2.last_usage = s.last_usage := by
  simp only [set_extended_thinking]
  repeat' split
  all_goals rfl

theorem set_thinking_last_usage (s : LLMState) (enabled : Bool) :
    (set_thinking s enabled).2.last_usage = s.last_usage := by
  simp only [set_thinking]
  repeat' split
  all_goals rfl

theorem set_reasoning_effort_last_usage (s : LLMState) (e : String) :
    (set_reasoning_effort s e).2.last_usage = s.last_usage := by
  simp only [set_reasoning_effort]
  repeat' split
  all_goals rfl

theorem set_api_key_last_usage (s : LLMState) (k : String) :
    (set_api_key s k).last_usage = s.last_usage := by
  simp only [set_api_key]
  split
  all_goals rfl

/-- C9, amended.  `last_usage` starts empty, is preserved by every
mutator, and a `send` call changes it only by recording the usage of a
200 transport response (HTTP providers) or the usage metadata of a
successful SDK response (Gemini): every call that never reaches such a
recording point — precondition failure, transport exception, non-200
status, parse failure — leaves it unchanged.  (A call CAN, however,
return an error string with `last_usage` already overwritten when the
progress callback raises at the final milestone; see the
counterexample.) -/
theorem C9_last_usage (cfg : Config) (key : Option String) (s : LLMState)
    (prompt p m k2 e : String) (value : JVal) (enabled : Bool) (budget : Option Int)
    (env : Env) :
    (initLLM cfg key).last_usage = .obj [] ∧
    (set_provider s p).2.last_usage = s.last_usage ∧
    (set_model s m).last_usage = s.last_usage ∧
    (set_parameter s p value).last_usage = s.last_usage ∧
    (set_api_key s k2).last_usage = s.last_usage ∧
    (set_extended_thinking s enabled budget).2.last_usage = s.last_usage ∧
    (set_thinking s enabled).2.last_usage = s.last_usage ∧
    (set_reasoning_effort s e).2.last_usage = s.last_usage ∧
    ((send_request s prompt env).state.last_usage = s.last_usage ∨
      (∃ req resp u, env.post req = .ok resp ∧ resp.status = 200 ∧
        bodyUsage resp.body = some u ∧
        (send_request s prompt env).state.last_usage = u) ∨
      (∃ req gresp a b c, env.generate req = .ok gresp ∧
        gresp.usage = some (a, b, c) ∧
        (send_request s prompt env).state.last_usage =
          .obj [("prompt_tokens", .num a), ("completion_tokens", .num b),
            ("total_tokens", .num c)])) := by
  refine ⟨?_, set_provider_last_usage s p, set_model_last_usage s m, rfl,
    set_api_key_last_usage s k2, set_extended_thinking_last_usage s enabled budget,
    set_thinking_last_usage s enabled, set_reasoning_effort_last_usage s e, ?_⟩
  · simp only [initLLM]
    split
    · rw [configure_last_usage]
    · rfl
  · unfold send_request
    by_cases hk : optStrTruthy s.api_key = true
    · by_cases hm : optStrTruthy s.model_id = true
      · simp only [hk, hm, not_true_eq_false, if_false]
        rcases h10 : emit env [] 10 with ⟨tr, _ | m10⟩
        · simp only [h10]
          rw [(catch_outcome _).2.2]
          by_cases ha : s.api_provider = "anthropic"
          · rw [if_pos ha]
            rcases anthropic_usage s prompt env tr with h | ⟨req, resp, u, h1, h2, h3, h4⟩
            · exact Or.inl h
            · exact Or.inr (Or.inl ⟨req, resp, u, h1, h2, h3, h4⟩)
          · rw [if_neg ha]
            by_cases ho : s.api_provider = "openai"
            · rw [if_pos ho]
              rcases openai_usage s prompt env tr with h | ⟨req, resp, u, h1, h2, h3, h4⟩
              · exact Or.inl h
              · exact Or.inr (Or.inl ⟨req, resp, u, h1, h2, h3, h4⟩)
            · rw [if_neg ho]
              by_cases hg : s.api_provider = "gemini"
              · rw [if_pos hg]
                rcases gemini_usage s prompt env tr with h | ⟨req, gr, a, b, c, h1, h2, h3⟩
                · exact Or.inl h
                · exact Or.inr (Or.inr ⟨req, gr, a, b, c, h1, h2, h3⟩)
              · rw [if_neg hg]
                exact Or.inl (by trivial)
        · simp only [h10]
          exact Or.inl (by trivial)
      · simp only [hk, hm]
        exact Or.inl (by trivial)
    · simp only [hk]
      exact Or.inl (by trivial)
